import Mathlib

/-!
# Pager-ops: the incident poller and its cache

A shallow embedding of the polling engine of `services/poller.go`, of the
remote fetch of `services/pagerduty.go`, of the SQLite repository of
`database/repository.go` and of the settings methods of `app.go`, followed by
theorems about them.

Conventions of the embedding.

* A Go `map[string]V` is an association list with at most one pair per key;
  `GoMap.get` is the two-valued lookup `v, ok := m[k]` and `GoMap.set` is the
  assignment `m[k] = v`.
* A `time.Time` is an instant, counted in nanoseconds, with the offset of its
  location; a `time.Duration` is an integer count of nanoseconds.
* An `error` is the text of its message; `nil` is `none`.
* The sqlite database behind `Repository` is the content of its tables. The
  only failure of a statement that is modelled is the one of a database that
  has been closed (`Repository.Close`): every statement then returns an error
  and changes nothing.
* Calls on collaborators (the PagerDuty client, the Wails runtime, the sound
  player, the writes of the repository) are recorded, in program order, in a
  list of `Effect`s; the writes of the repository are applied to its tables as
  well. What the PagerDuty client answers and what the clock shows are read
  from a `World`.
-/

namespace PagerOps

/-! ## Go maps -/

/-- A Go map with string keys. -/
abbrev GoMap (β : Type) := List (String × β)

namespace GoMap

/-- The map made by `make(map[string]V)`. -/
def empty {β : Type} : GoMap β := []

/-- The lookup `v, ok := m[k]`. -/
def get {β : Type} : GoMap β → String → Option β
  | [], _ => none
  | (k', v) :: m, k => if k' = k then some v else get m k

/-- The assignment `m[k] = v`. -/
def set {β : Type} (m : GoMap β) (k : String) (v : β) : GoMap β :=
  (k, v) :: m.filter (fun e => decide (e.1 ≠ k))

/-- The keys of the map. -/
def keys {β : Type} (m : GoMap β) : List String := m.map Prod.fst

end GoMap

/-! ## Go strings, channels and panics

A Go string is a `String` whose characters stand for its bytes: `len(s)` is
`s.length` and a slice of `s` is taken on its characters. A run-time panic is
the `error` case of `Except String`, with the text of the panic. -/

/-- The function `strings.HasPrefix(s, pre)`. -/
def hasPrefixOf (s pre : String) : Bool := pre.data.isPrefixOf s.data

/-- The function `strings.TrimPrefix(s, pre)`. -/
def trimPrefixOf (s pre : String) : String :=
  if hasPrefixOf s pre then String.mk (s.data.drop pre.data.length) else s

/-- The slice `s[n:]` of a string, for `0 ≤ n ≤ len(s)`. -/
def sliceFrom (s : String) (n : Nat) : String := String.mk (s.data.drop n)

/-- The slice `s[:n]` of a string, for `0 ≤ n ≤ len(s)`. -/
def sliceTo (s : String) (n : Nat) : String := String.mk (s.data.take n)

/-- A channel of the kind of `stopCh`, on which nothing is ever sent: it is as
`make` returned it, or it has been closed. -/
inductive Chan where
  | made
  | closed
  deriving DecidableEq, Repr

/-- The built-in `close(ch)`: closing a closed channel panics. -/
def closeChan : Chan → Except String Chan
  | Chan.made => Except.ok Chan.closed
  | Chan.closed => Except.error "close of closed channel"

/-- The codec `base64.StdEncoding` of the standard library, on strings:
`EncodeToString([]byte(v))` and `DecodeString(s)` followed by `string(·)`. -/
structure Base64 where
  EncodeToString : String → String
  DecodeString : String → Except String String

/-- What is used of `base64.StdEncoding`: decoding undoes encoding, and an
encoding is not shorter than what it encodes. -/
def Base64.Lawful (b64 : Base64) : Prop :=
  (∀ v : String, b64.DecodeString (b64.EncodeToString v) = Except.ok v) ∧
  (∀ v : String, v.length ≤ (b64.EncodeToString v).length)

/-! ## Go times

A `time.Time` carries an instant and a location. Of the location the offset
from UTC is kept, because the sqlite driver writes a time as the text of its
wall clock followed by that offset. -/

/-- A `time.Time`: the instant, in nanoseconds, and the offset of its location,
in seconds east of UTC. -/
structure Time where
  instant : Int
  offset : Int := 0
  deriving DecidableEq, Repr

/-- A numeral read as a time: that instant, in UTC. -/
instance (n : Nat) : OfNat Time n := ⟨{ instant := n, offset := 0 }⟩

/-- The method `Time.Add`: the instant moves, the location stays. -/
instance : HAdd Time Int Time := ⟨fun t d => { instant := t.instant + d, offset := t.offset }⟩

/-- The method `Time.Add` of a negated duration. -/
instance : HSub Time Int Time := ⟨fun t d => { instant := t.instant - d, offset := t.offset }⟩

/-- The zero `time.Time`, which `time.Parse` returns along with an error. -/
def zeroTime : Time := 0

/-- The constant `time.Hour`, in nanoseconds. -/
def hour : Int := 3600 * 1000000000

/-- The time that shows the instant `t` in UTC. -/
def Time.utc (t : Int) : Time := { instant := t, offset := 0 }

/-- The reading of the wall clock of a time in its own location, in
nanoseconds. -/
def Time.wallClock (t : Time) : Int := t.instant + t.offset * 1000000000

/-- The rank of the offset text `±hh:mm` of a time among such texts compared
byte by byte: the texts with `+` come first, in the order of their minutes,
then the texts with `-`, in the order of their minutes. The minutes are
`offset / 60`, rounded towards zero, as `Time.Format` computes them. -/
def Time.zoneRank (t : Time) : Int :=
  if Int.tdiv t.offset 60 < 0 then 100000 - Int.tdiv t.offset 60 else Int.tdiv t.offset 60

/-- The comparison `a < b` that SQLite makes of two times bound or stored by
the driver. The driver writes a `time.Time` as the text of the layout
`2006-01-02 15:04:05.999999999-07:00`, in the time's own location, and SQLite
compares two texts byte by byte: for the years 0000 to 9999 that is the order
of the wall clocks, and for equal wall clocks the order of the offset texts. -/
def sqliteBefore (a b : Time) : Bool :=
  decide (a.wallClock < b.wallClock) ||
    (decide (a.wallClock = b.wallClock) && decide (a.zoneRank < b.zoneRank))

/-! ## database/models.go -/

namespace Database

/-- The struct `Setting`: a row of the table `settings`. -/
structure Setting where
  Key : String
  Value : String
  deriving DecidableEq, Repr

/-- The struct `Service`: a row of the table `services`. -/
structure Service where
  ID : String
  Alias : String
  Enabled : Bool
  deriving DecidableEq, Repr

/-- The struct `User`: a row of the table `user`. -/
structure User where
  ID : String
  Email : String
  Name : String
  deriving DecidableEq, Repr

/-- The struct `CachedIncident`: a row of the table `incidents`. The column
`assigned_user_ids` holds the JSON text of the list; the list itself stands
for it here. -/
structure CachedIncident where
  ID : String
  ServiceID : String
  Status : String
  Title : String
  Description : String
  Urgency : String
  IncidentNumber : Int
  CreatedAt : Time
  UpdatedAt : Time
  Pinned : Bool
  AssignedUserIDs : List String
  EscalationLevel : Int
  HTMLURL : String
  deriving DecidableEq, Repr

def SettingAPIKey : String := "api_key"
def SettingTheme : String := "theme"
def SettingAssignedOnly : String := "assigned_only"
def SettingRedirectEnabled : String := "redirect_enabled"
def SettingSoundPath : String := "sound_path"
def SettingSoundEnabled : String := "sound_enabled"

/-! ## database/repository.go -/

/-- The database behind `Repository.db`: whether it has been closed, and the
rows of the tables `settings`, `services`, `incidents` and `user`. -/
structure Repository where
  closed : Bool
  settings : List Setting
  services : List Service
  incidents : List CachedIncident
  user : List User := []
  deriving DecidableEq, Repr

/-- The error of a statement run on a closed database. -/
def errClosed : String := "sql: database is closed"

namespace Repository

/-- The method `GetSetting`: `SELECT value FROM settings WHERE key = ?`, where
`sql.ErrNoRows` is turned into the empty string without an error. -/
def GetSetting (r : Repository) (key : String) : String × Option String :=
  if r.closed then ("", some errClosed)
  else
    match r.settings.find? (fun s => decide (s.Key = key)) with
    | some s => (s.Value, none)
    | none => ("", none)

/-- The function `encryptValue`: the prefix `enc:` followed by the base64
text of the value; its error is always nil. -/
def encryptValue (b64 : Base64) (value : String) : String × Option String :=
  ("enc:" ++ b64.EncodeToString value, none)

/-- The function `decryptValue`: a value without the prefix `enc:` is returned
as it is; otherwise the prefix is removed and the rest decoded. -/
def decryptValue (b64 : Base64) (encrypted : String) : String × Option String :=
  if ¬ hasPrefixOf encrypted "enc:" then (encrypted, none)
  else
    match b64.DecodeString (trimPrefixOf encrypted "enc:") with
    | Except.error err => ("", some ("failed to decrypt value: " ++ err))
    | Except.ok decoded => (decoded, none)

/-- The statement `INSERT INTO settings (key, value) VALUES (?, ?) ON
CONFLICT(key) DO UPDATE SET value = excluded.value` on the rows of the table. -/
def upsertSetting (rows : List Setting) (key value : String) : List Setting :=
  if rows.any (fun row => decide (row.Key = key)) then
    rows.map (fun row => if row.Key = key then { row with Value := value } else row)
  else rows ++ [{ Key := key, Value := value }]

/-- The method `SetSetting`: a non-empty value of the key `api_key` is
encrypted before it is stored. -/
def SetSetting (r : Repository) (b64 : Base64) (key value : String) :
    Repository × Option String :=
  if key = SettingAPIKey ∧ value ≠ "" then
    match encryptValue b64 value with
    | (_, some err) => (r, some err)
    | (encrypted, none) =>
      if r.closed then (r, some errClosed)
      else ({ r with settings := upsertSetting r.settings key encrypted }, none)
  else
    if r.closed then (r, some errClosed)
    else ({ r with settings := upsertSetting r.settings key value }, none)

/-- The method `GetAPIKey`. -/
def GetAPIKey (r : Repository) (b64 : Base64) : String × Option String :=
  match r.GetSetting SettingAPIKey with
  | (encrypted, err) =>
    if err ≠ none ∨ encrypted = "" then ("", err)
    else decryptValue b64 encrypted

/-- The method `SetUser`: `DELETE FROM user`, whose error is dropped, then
`INSERT INTO user (id, email, name) VALUES (?, ?, ?)`. -/
def SetUser (r : Repository) (user : User) : Repository × Option String :=
  if r.closed then (r, some errClosed)
  else ({ r with user := [user] }, none)

/-- The method `GetServices`: `SELECT * FROM services ORDER BY alias`, the
aliases compared character by character as the BINARY collation does. -/
def GetServices (r : Repository) : List Service × Option String :=
  if r.closed then ([], some errClosed)
  else (r.services.insertionSort (fun a b => a.Alias.data ≤ b.Alias.data), none)

/-- The row `row` after `ON CONFLICT(id) DO UPDATE SET status = excluded.status,
title = ..., description = ..., urgency = ..., updated_at = ...,
assigned_user_ids = ..., escalation_level = ...` with `incident` as the
excluded row. -/
def conflictUpdate (row incident : CachedIncident) : CachedIncident :=
  { row with
    Status := incident.Status
    Title := incident.Title
    Description := incident.Description
    Urgency := incident.Urgency
    UpdatedAt := incident.UpdatedAt
    AssignedUserIDs := incident.AssignedUserIDs
    EscalationLevel := incident.EscalationLevel }

/-- The method `UpsertIncident`: `INSERT INTO incidents (...) VALUES (...)
ON CONFLICT(id) DO UPDATE SET ...`. -/
def UpsertIncident (r : Repository) (incident : CachedIncident) : Repository × Option String :=
  if r.closed then (r, some errClosed)
  else if r.incidents.any (fun row => decide (row.ID = incident.ID)) then
    ({ r with incidents := r.incidents.map (fun row =>
        if row.ID = incident.ID then conflictUpdate row incident else row) }, none)
  else
    ({ r with incidents := r.incidents ++ [incident] }, none)

/-- The method `PinIncident`: `UPDATE incidents SET pinned = ? WHERE id = ?`. -/
def PinIncident (r : Repository) (id : String) (pinned : Bool) : Repository × Option String :=
  if r.closed then (r, some errClosed)
  else
    ({ r with incidents := r.incidents.map (fun row =>
        if row.ID = id then { row with Pinned := pinned } else row) }, none)

/-- The method `CleanOldIncidents`: `DELETE FROM incidents WHERE status =
'resolved' AND updated_at < ?`, the comparison being the one SQLite makes of
the texts the driver wrote for the two times. -/
def CleanOldIncidents (r : Repository) (olderThan : Time) : Repository × Option String :=
  if r.closed then (r, some errClosed)
  else
    ({ r with incidents := r.incidents.filter (fun row =>
        !(decide (row.Status = "resolved") && sqliteBefore row.UpdatedAt olderThan)) }, none)

/-- The row of the table `incidents` whose primary key is `id`. -/
def incident? (r : Repository) (id : String) : Option CachedIncident :=
  r.incidents.find? (fun row => decide (row.ID = id))

end Repository

end Database

/-! ## services/pagerduty.go: data models -/

/-- The struct `Incident` of `services/pagerduty.go`. -/
structure Incident where
  ID : String
  ServiceID : String
  Status : String
  Title : String
  Description : String
  Urgency : String
  IncidentNumber : Int
  CreatedAt : Time
  UpdatedAt : Time
  AssignedUserIDs : List String
  EscalationLevel : Int
  HTMLURL : String
  deriving DecidableEq, Repr

/-- The struct `IncidentFilters`; `Since` is a pointer, `none` when nil. -/
structure IncidentFilters where
  Statuses : List String
  ServiceIDs : List String
  AssignedToMe : Bool
  Since : Option Time
  deriving DecidableEq, Repr

/-! ## services/pagerduty.go: the fetch -/

/-- The fields of the client library's `pagerduty.Incident` that
`convertIncident` reads: `ServiceID` is `inc.Service.ID`, `Assignments` lists
`assignment.Assignee.ID`, `IncidentNumber` is a `uint`. -/
structure PDIncident where
  ID : String
  ServiceID : String
  Status : String
  Title : String
  Description : String
  Urgency : String
  IncidentNumber : Nat
  CreatedAt : String
  LastStatusChangeAt : String
  Assignments : List String
  HTMLURL : String
  deriving DecidableEq, Repr

/-- The fields of `pagerduty.ListIncidentsOptions` that `FetchIncidents` sets;
an unset field has its zero value. -/
structure ListIncidentsOptions where
  Limit : Nat
  Statuses : List String
  ServiceIDs : List String
  UserIDs : List String
  Since : String
  SortBy : String
  deriving DecidableEq, Repr

/-- What the tick reads from outside the process: the answer of the PagerDuty
client to `ListIncidentsWithContext`, `time.Parse(time.RFC3339, ·)` (`none`
when it fails), `Time.Format(time.RFC3339)`, and the two readings of
`time.Now()` made by `poll`. -/
structure World where
  listIncidents : ListIncidentsOptions → Except String (List PDIncident)
  timeParse : String → Option Time
  timeFormat : Time → String
  nowFetch : Time
  nowClean : Time

/-- The fields of `PagerDutyService` besides the client and the repository. -/
structure PagerDutyService where
  userID : String
  userEmail : String
  deriving DecidableEq, Repr

/-- The conversion `int(inc.IncidentNumber)` of a `uint` on a 64-bit target. -/
def uintToInt (n : Nat) : Int :=
  if n % 2 ^ 64 < 2 ^ 63 then ((n % 2 ^ 64 : Nat) : Int) else ((n % 2 ^ 64 : Nat) : Int) - 2 ^ 64

/-- The method `PagerDutyService.convertIncident`. -/
def PagerDutyService.convertIncident (_s : PagerDutyService) (w : World) (inc : PDIncident) :
    Incident :=
  { ID := inc.ID
    ServiceID := if inc.ServiceID ≠ "" then inc.ServiceID else ""
    Status := inc.Status
    Title := inc.Title
    Description := inc.Description
    Urgency := inc.Urgency
    IncidentNumber := uintToInt inc.IncidentNumber
    CreatedAt := (w.timeParse inc.CreatedAt).getD zeroTime
    UpdatedAt := (w.timeParse inc.LastStatusChangeAt).getD zeroTime
    AssignedUserIDs := inc.Assignments
    EscalationLevel := 0
    HTMLURL := inc.HTMLURL }

/-- The options `FetchIncidents` builds from the filters. -/
def PagerDutyService.listOptions (s : PagerDutyService) (w : World) (filters : IncidentFilters) :
    ListIncidentsOptions :=
  { Limit := 100
    Statuses := if filters.Statuses.length > 0 then filters.Statuses else []
    ServiceIDs := if filters.ServiceIDs.length > 0 then filters.ServiceIDs else []
    UserIDs := if filters.AssignedToMe = true ∧ s.userID ≠ "" then [s.userID] else []
    Since := match filters.Since with
      | some t => w.timeFormat t
      | none => ""
    SortBy := "created_at:desc" }

/-- The method `PagerDutyService.FetchIncidents`: the slice and the error it
returns. -/
def PagerDutyService.FetchIncidents (s : PagerDutyService) (w : World)
    (filters : IncidentFilters) : List Incident × Option String :=
  match w.listIncidents (s.listOptions w filters) with
  | .error err => ([], some ("failed to fetch incidents: " ++ err))
  | .ok resp => (resp.map (s.convertIncident w), none)

/-! ## services/poller.go: the diff against the snapshot -/

/-- The fields of `IncidentPoller` that the tick reads and writes: the poll
interval and the snapshot `lastIncidents`. The repository the poller points
to is shared with the rest of the program and is passed alongside; `stopCh` is
the state of the channel the field points to. -/
structure IncidentPoller where
  interval : Int
  lastIncidents : GoMap Incident
  stopCh : Chan := Chan.made
  deriving DecidableEq, Repr

/-- The method `IncidentPoller.Stop`: `close(p.stopCh)`. -/
def IncidentPoller.Stop (p : IncidentPoller) : Except String IncidentPoller :=
  match closeChan p.stopCh with
  | Except.ok ch => Except.ok { p with stopCh := ch }
  | Except.error msg => Except.error msg

/-- One turn of the `for _, inc := range incidents` loop of
`detectNewIncidents`; `last` is `p.lastIncidents`, the state is
`(newIncidents, currentMap)`. -/
def detectStep (last : GoMap Incident) (st : List Incident × GoMap Incident)
    (inc : Incident) : List Incident × GoMap Incident :=
  let currentMap := st.2.set inc.ID inc
  match last.get inc.ID with
  | none => (st.1 ++ [inc], currentMap)
  | some lastInc =>
    if lastInc.Status ≠ inc.Status ∧ inc.Status = "triggered" then
      (st.1 ++ [inc], currentMap)
    else
      (st.1, currentMap)

/-- The method `IncidentPoller.detectNewIncidents`: the returned slice and the
poller with its snapshot replaced. -/
def IncidentPoller.detectNewIncidents (p : IncidentPoller) (incidents : List Incident) :
    List Incident × IncidentPoller :=
  let r := incidents.foldl (detectStep p.lastIncidents) ([], GoMap.empty)
  (r.1, { p with lastIncidents := r.2 })

/-! ## services/poller.go: the tick -/

/-- The payload of the event `incidents:updated`. -/
structure UpdatePayload where
  incidents : List Incident
  newIncidents : List Incident
  totalCount : Nat
  triggeredCount : Nat
  acknowledgedCount : Nat
  resolvedCount : Nat
  deriving DecidableEq, Repr

/-- A call that `poll` makes on a collaborator, as recorded in the trace of a
tick. -/
inductive Effect where
  | LogError (msg : String)
  | ListIncidents (opts : ListIncidentsOptions)
  | PlayAlert
  | BrowserOpenURL (url : String)
  | UpsertIncident (incident : Database.CachedIncident)
  | CleanOldIncidents (olderThan : Time)
  | EventsEmit (name : String) (payload : UpdatePayload)
  deriving DecidableEq, Repr

/-- The calls of one turn of the loop `for _, inc := range newIncidents` of
`poll`. -/
def alertCalls (redirectEnabled : String) (inc : Incident) : List Effect :=
  if inc.Status = "triggered" then
    if redirectEnabled = "true" ∧ inc.HTMLURL ≠ "" then
      [Effect.PlayAlert, Effect.BrowserOpenURL inc.HTMLURL]
    else
      [Effect.PlayAlert]
  else []

/-- The loop `for _, inc := range newIncidents` of `poll`: the trace `tr` with
the calls of the loop appended. -/
def handleNewIncidents (redirectEnabled : String) (newIncidents : List Incident)
    (tr : List Effect) : List Effect :=
  newIncidents.foldl (fun tr inc => tr ++ alertCalls redirectEnabled inc) tr

/-- The `database.CachedIncident` that `poll` builds from an incident; the
field `Pinned` is not set and has its zero value. -/
def toCached (inc : Incident) : Database.CachedIncident :=
  { ID := inc.ID
    ServiceID := inc.ServiceID
    Status := inc.Status
    Title := inc.Title
    Description := inc.Description
    Urgency := inc.Urgency
    IncidentNumber := inc.IncidentNumber
    CreatedAt := inc.CreatedAt
    UpdatedAt := inc.UpdatedAt
    Pinned := false
    AssignedUserIDs := inc.AssignedUserIDs
    EscalationLevel := inc.EscalationLevel
    HTMLURL := inc.HTMLURL }

/-- The loop `for _, inc := range allIncidents` of `poll`: the repository after
the upserts (their errors are dropped) and the calls appended to the trace. -/
def cacheIncidents (allIncidents : List Incident)
    (st : Database.Repository × List Effect) : Database.Repository × List Effect :=
  allIncidents.foldl (fun st inc =>
    ((st.1.UpsertIncident (toCached inc)).1, st.2 ++ [Effect.UpsertIncident (toCached inc)])) st

/-- The state after a tick and the calls the tick made. -/
structure TickResult where
  poller : IncidentPoller
  repository : Database.Repository
  effects : List Effect
  deriving DecidableEq, Repr

/-- The log line for a failed partition, or nothing. -/
def logFetchError (what : String) (err : Option String) : List Effect :=
  match err with
  | some e => [Effect.LogError ("Failed to fetch " ++ what ++ " incidents: " ++ e)]
  | none => []

/-- The identifiers of the enabled services, as the first loop of `poll`
collects them. -/
def enabledServiceIDs (services : List Database.Service) : List String :=
  (services.filter (fun svc => svc.Enabled)).map (fun svc => svc.ID)

/-- The value `filters` of `poll`. -/
def pollFilters (assignedOnly : String) (services : List Database.Service) : IncidentFilters :=
  { Statuses := []
    ServiceIDs := enabledServiceIDs services
    AssignedToMe := decide (assignedOnly = "true")
    Since := none }

/-- The filters of the first goroutine. -/
def triggeredFilters (filters : IncidentFilters) : IncidentFilters :=
  { filters with Statuses := ["triggered"] }

/-- The filters of the second goroutine. -/
def acknowledgedFilters (filters : IncidentFilters) : IncidentFilters :=
  { filters with Statuses := ["acknowledged"] }

/-- The filters of the third goroutine: `since` is `time.Now().Add(-24 * time.Hour)`. -/
def resolvedFilters (w : World) (filters : IncidentFilters) : IncidentFilters :=
  { filters with Statuses := ["resolved"], Since := some (w.nowFetch + (-24) * hour) }

/-- The method `IncidentPoller.poll`. The three fetches run in goroutines that
are joined by `wg.Wait()`; their calls are recorded in the order in which the
goroutines are started. -/
def IncidentPoller.poll (p : IncidentPoller) (pd : PagerDutyService) (w : World)
    (repo : Database.Repository) : TickResult :=
  let assignedOnly := (repo.GetSetting Database.SettingAssignedOnly).1
  let redirectEnabled := (repo.GetSetting Database.SettingRedirectEnabled).1
  match repo.GetServices with
  | (_, some err) => ⟨p, repo, [Effect.LogError ("Failed to get services: " ++ err)]⟩
  | (services, none) =>
    if (enabledServiceIDs services).length = 0 then ⟨p, repo, []⟩
    else
      let filters := pollFilters assignedOnly services
      let triggered := pd.FetchIncidents w (triggeredFilters filters)
      let acknowledged := pd.FetchIncidents w (acknowledgedFilters filters)
      let resolved := pd.FetchIncidents w (resolvedFilters w filters)
      let fetches := [Effect.ListIncidents (pd.listOptions w (triggeredFilters filters)),
        Effect.ListIncidents (pd.listOptions w (acknowledgedFilters filters)),
        Effect.ListIncidents (pd.listOptions w (resolvedFilters w filters))]
      let logs := logFetchError "triggered" triggered.2 ++
        logFetchError "acknowledged" acknowledged.2 ++ logFetchError "resolved" resolved.2
      let allIncidents := (triggered.1 ++ acknowledged.1) ++ resolved.1
      let detected := p.detectNewIncidents allIncidents
      let newIncidents := detected.1
      let alerts := if newIncidents.length > 0 then
          handleNewIncidents redirectEnabled newIncidents (fetches ++ logs)
        else fetches ++ logs
      let cached := cacheIncidents allIncidents (repo, alerts)
      let cleaned := cached.1.CleanOldIncidents (w.nowClean + (-48) * hour)
      let payload : UpdatePayload :=
        { incidents := allIncidents
          newIncidents := newIncidents
          totalCount := allIncidents.length
          triggeredCount := triggered.1.length
          acknowledgedCount := acknowledged.1.length
          resolvedCount := resolved.1.length }
      ⟨detected.2, cleaned.1,
        cached.2 ++ [Effect.CleanOldIncidents (w.nowClean + (-48) * hour),
          Effect.EventsEmit "incidents:updated" payload]⟩

/-! ## services/poller.go: the loop

The goroutine of `pollLoop`, the ticker and the goroutine that calls `Stop`
run side by side. Their interleavings are the sequences of `LoopAction`s that
`LoopState.step` accepts one after the other. A `select` of which both cases
can proceed takes either: both actions are then accepted. -/

/-- Where the goroutine of `pollLoop` stands. -/
inductive LoopPhase where
  | launched
  | inTick
  | selecting
  | returned
  deriving DecidableEq, Repr

/-- What is seen of a run: a tick starts (`p.poll()` is entered), a call of the
tick is made on a collaborator, `Stop()` returns to its caller. -/
inductive LoopEvent where
  | TickStarted
  | Dispatched (e : Effect)
  | StopReturned
  deriving DecidableEq, Repr

/-- The poller, its service handle and repository, the goroutine of its loop,
the ticker (`tickPending`: a tick waits in the buffer of `ticker.C`) and the
events so far. -/
structure LoopState where
  phase : LoopPhase
  poller : IncidentPoller
  pd : PagerDutyService
  repository : Database.Repository
  tickPending : Bool
  log : List LoopEvent
  deriving DecidableEq, Repr

/-- The moves of a run. `initialPoll`: the goroutine makes the ticker and
enters the initial `p.poll()`. `tickerFires`: the runtime sends a tick on
`ticker.C`. `selectTicker`: the `select` takes `case <-ticker.C` and enters
`p.poll()`. `selectStop`: the `select` takes `case <-p.stopCh` and the loop
returns. `endTick`: the `p.poll()` that was entered runs to its end.
`callStop`: another goroutine calls `p.Stop()`, which returns. -/
inductive LoopAction where
  | initialPoll
  | tickerFires
  | selectTicker
  | selectStop
  | endTick (w : World)
  | callStop

/-- One move of a run, or `none` when the move cannot be made in this state
(a `Stop` that panics included). -/
def LoopState.step (s : LoopState) : LoopAction → Option LoopState
  | LoopAction.initialPoll =>
    if s.phase = LoopPhase.launched then
      some { s with phase := LoopPhase.inTick, log := s.log ++ [LoopEvent.TickStarted] }
    else none
  | LoopAction.tickerFires =>
    if s.phase = LoopPhase.inTick ∨ s.phase = LoopPhase.selecting then
      some { s with tickPending := true }
    else none
  | LoopAction.selectTicker =>
    if s.phase = LoopPhase.selecting ∧ s.tickPending = true then
      some { s with phase := LoopPhase.inTick, tickPending := false,
                    log := s.log ++ [LoopEvent.TickStarted] }
    else none
  | LoopAction.selectStop =>
    if s.phase = LoopPhase.selecting ∧ s.poller.stopCh = Chan.closed then
      some { s with phase := LoopPhase.returned }
    else none
  | LoopAction.endTick w =>
    if s.phase = LoopPhase.inTick then
      some { s with phase := LoopPhase.selecting,
                    poller := (s.poller.poll s.pd w s.repository).poller,
                    repository := (s.poller.poll s.pd w s.repository).repository,
                    log := s.log ++
                      (s.poller.poll s.pd w s.repository).effects.map LoopEvent.Dispatched }
    else none
  | LoopAction.callStop =>
    match s.poller.Stop with
    | Except.ok p' => some { s with poller := p', log := s.log ++ [LoopEvent.StopReturned] }
    | Except.error _ => none

/-- A run: the moves made one after the other, `none` as soon as one cannot be
made. -/
def LoopState.run (s : LoopState) : List LoopAction → Option LoopState
  | [] => some s
  | a :: rest =>
    match s.step a with
    | some s' => s'.run rest
    | none => none

/-- The events of a log that come after the first return of `Stop()`. -/
def afterStop : List LoopEvent → List LoopEvent
  | [] => []
  | LoopEvent.StopReturned :: rest => rest
  | _ :: rest => afterStop rest

/-- The starts of ticks and the calls on collaborators in a log. -/
def tickEvents (log : List LoopEvent) : List LoopEvent :=
  log.filter (fun e => decide (e ≠ LoopEvent.StopReturned))

/-! ## app.go -/

/-- The struct `AppSettings`. -/
structure AppSettings where
  APIKey : String
  Theme : String
  AssignedOnly : Bool
  RedirectEnabled : Bool
  SoundPath : String
  SoundEnabled : Bool
  deriving DecidableEq, Repr

/-- The data of an event emitted by `app.go`. -/
inductive AppEvent where
  | flag (b : Bool)
  | settings (s : AppSettings)
  deriving DecidableEq, Repr

/-- A call that `app.go` makes on the Wails runtime, and the start of the
goroutine of the poller (`go p.pollLoop()`). -/
inductive AppEffect where
  | LogInfo (msg : String)
  | LogError (msg : String)
  | EventsEmit (name : String) (data : AppEvent)
  | StartPoller
  deriving DecidableEq, Repr

/-- What `app.go` reads from outside the process: the codec of the standard
library and the answer of the PagerDuty API to `GetCurrentUser` for a client
made with a given key. -/
structure Remote where
  base64 : Base64
  getCurrentUser : String → Except String Database.User

/-- The function `NewPagerDutyService`, with `RefreshUser` inlined: the service
and the repository after `SetUser`, or the error. -/
def NewPagerDutyService (remote : Remote) (apiKey : String) (repo : Database.Repository) :
    Except String (PagerDutyService × Database.Repository) :=
  if apiKey = "" then Except.error "API key is required"
  else
    match remote.getCurrentUser apiKey with
    | Except.error err => Except.error ("failed to get user: " ++ err)
    | Except.ok user =>
      match repo.SetUser { ID := user.ID, Email := user.Email, Name := user.Name } with
      | (_, some err) => Except.error ("failed to get user: " ++ err)
      | (repo', none) => Except.ok ({ userID := user.ID, userEmail := user.Email }, repo')

/-- The function `NewIncidentPoller`: interval of three seconds, a fresh stop
channel, an empty snapshot. -/
def NewIncidentPoller : IncidentPoller :=
  { interval := 3 * 1000000000, lastIncidents := GoMap.empty, stopCh := Chan.made }

/-- The fields of `App` after `startup` has opened the repository: `pd` and
`poller` are pointers, `none` when nil; `poller` holds the state of the poller
it points to, of which this file follows the stop channel. -/
structure App where
  repository : Database.Repository
  pd : Option PagerDutyService := none
  poller : Option IncidentPoller := none
  deriving DecidableEq, Repr

/-- The method `App.initializePagerDuty`. -/
def App.initializePagerDuty (a : App) (remote : Remote) : App × List AppEffect :=
  match a.repository.GetAPIKey remote.base64 with
  | (apiKey, err) =>
    if err ≠ none ∨ apiKey = "" then
      (a, [AppEffect.LogInfo "No API key configured",
        AppEffect.EventsEmit "setup:required" (AppEvent.flag true)])
    else
      match NewPagerDutyService remote apiKey a.repository with
      | Except.error err =>
        (a, [AppEffect.LogError ("Failed to initialize PagerDuty: " ++ err),
          AppEffect.EventsEmit "setup:required" (AppEvent.flag true)])
      | Except.ok (pd, repo) =>
        ({ repository := repo, pd := some pd, poller := some NewIncidentPoller },
          [AppEffect.StartPoller, AppEffect.EventsEmit "setup:complete" (AppEvent.flag true)])

/-- The function `boolToString`. -/
def boolToString (b : Bool) : String := if b then "true" else "false"

/-- The function `startsWith`: `len(s) >= len(pre) && s[:len(pre)] == pre`. -/
def startsWith (s pre : String) : Bool :=
  decide (s.length ≥ pre.length) && decide (sliceTo s pre.length = pre)

/-- The five calls of `SetSetting` that `SaveSettings` makes for the theme, the
assignment filter, the redirect, the sound path and the sound switch; their
errors are dropped. -/
def writePreferences (r : Database.Repository) (b64 : Base64) (settings : AppSettings) :
    Database.Repository :=
  let r1 := (r.SetSetting b64 Database.SettingTheme settings.Theme).1
  let r2 := (r1.SetSetting b64 Database.SettingAssignedOnly (boolToString settings.AssignedOnly)).1
  let r3 := (r2.SetSetting b64 Database.SettingRedirectEnabled
    (boolToString settings.RedirectEnabled)).1
  let r4 := (r3.SetSetting b64 Database.SettingSoundPath settings.SoundPath).1
  (r4.SetSetting b64 Database.SettingSoundEnabled (boolToString settings.SoundEnabled)).1

/-- The first block of `SaveSettings`, run for a key that is neither empty nor
masked: the key is stored, the poller, if there is one, is stopped, and
`initializePagerDuty` is called. A panic of `Stop` ends the call. -/
def App.replaceAPIKey (a : App) (remote : Remote) (apiKey : String) :
    Except String (App × List AppEffect) :=
  let repo := (a.repository.SetSetting remote.base64 Database.SettingAPIKey apiKey).1
  match a.poller with
  | some p =>
    match p.Stop with
    | Except.error msg => Except.error msg
    | Except.ok p' =>
      Except.ok (App.initializePagerDuty { a with repository := repo, poller := some p' } remote)
  | none => Except.ok (App.initializePagerDuty { a with repository := repo } remote)

/-- The method `App.SaveSettings`: the state and the calls made, or the panic
that ended it. -/
def App.SaveSettings (a : App) (remote : Remote) (settings : AppSettings) :
    Except String (App × List AppEffect) :=
  let keyBlock : Except String (App × List AppEffect) :=
    if settings.APIKey ≠ "" ∧ ¬ startsWith settings.APIKey "****" = true then
      a.replaceAPIKey remote settings.APIKey
    else Except.ok (a, [])
  match keyBlock with
  | Except.error msg => Except.error msg
  | Except.ok (a', tr) =>
    Except.ok ({ a' with repository := writePreferences a'.repository remote.base64 settings },
      tr ++ [AppEffect.EventsEmit "settings:updated" (AppEvent.settings settings)])

/-- The method `App.GetSettings`: the settings it returns, or the panic of the
slice expression `apiKey[len(apiKey)-4:]`. -/
def App.GetSettings (a : App) (remote : Remote) : Except String AppSettings :=
  let apiKey := (a.repository.GetAPIKey remote.base64).1
  let theme := (a.repository.GetSetting Database.SettingTheme).1
  let assignedOnly := (a.repository.GetSetting Database.SettingAssignedOnly).1
  let redirectEnabled := (a.repository.GetSetting Database.SettingRedirectEnabled).1
  let soundPath := (a.repository.GetSetting Database.SettingSoundPath).1
  let soundEnabled := (a.repository.GetSetting Database.SettingSoundEnabled).1
  let masked : Except String String :=
    if apiKey ≠ "" then
      if apiKey.length < 4 then Except.error "runtime error: slice bounds out of range"
      else Except.ok ("****" ++ sliceFrom apiKey (apiKey.length - 4))
    else Except.ok apiKey
  match masked with
  | Except.error msg => Except.error msg
  | Except.ok key =>
    Except.ok
      { APIKey := key
        Theme := theme
        AssignedOnly := decide (assignedOnly = "true")
        RedirectEnabled := decide (redirectEnabled = "true")
        SoundPath := soundPath
        SoundEnabled := decide (soundEnabled = "true") }

/-! ## Reading a trace -/

/-- The number of calls of `PlayAlert` in a trace. -/
def playAlertCount (tr : List Effect) : Nat :=
  (tr.filter (fun e => decide (e = Effect.PlayAlert))).length

/-- The addresses passed to `BrowserOpenURL` in a trace, in order. -/
def openedURLs (tr : List Effect) : List String :=
  tr.filterMap (fun e => match e with
    | Effect.BrowserOpenURL url => some url
    | _ => none)

/-- The events emitted in a trace, in order. -/
def eventsEmitted (tr : List Effect) : List (String × UpdatePayload) :=
  tr.filterMap (fun e => match e with
    | Effect.EventsEmit name payload => some (name, payload)
    | _ => none)

/-- The rows passed to `UpsertIncident` in a trace, in order. -/
def upsertCalls (tr : List Effect) : List Database.CachedIncident :=
  tr.filterMap (fun e => match e with
    | Effect.UpsertIncident c => some c
    | _ => none)

/-- The options of the remote fetches in a trace, in order. -/
def fetchCalls (tr : List Effect) : List ListIncidentsOptions :=
  tr.filterMap (fun e => match e with
    | Effect.ListIncidents opts => some opts
    | _ => none)

/-- The cut-off times passed to `CleanOldIncidents` in a trace, in order. -/
def cleanCalls (tr : List Effect) : List Time :=
  tr.filterMap (fun e => match e with
    | Effect.CleanOldIncidents t => some t
    | _ => none)

/-! ## The rule of the diff, in the words of the specification -/

/-- The rule of the Diff Engine: an incident is newly relevant when its
identifier is absent from the snapshot, or present with a different status
while the incident itself is `triggered`. -/
def newlyRelevant (S : GoMap Incident) (inc : Incident) : Bool :=
  match S.get inc.ID with
  | none => true
  | some lastInc => decide (lastInc.Status ≠ inc.Status) && decide (inc.Status = "triggered")

/-- The map that the loop of `detectNewIncidents` builds on top of `m`. -/
def buildMap (incidents : List Incident) (m : GoMap Incident) : GoMap Incident :=
  incidents.foldl (fun m inc => m.set inc.ID inc) m

/-- The repository after the upserts of the loop `for _, inc := range
allIncidents` of `poll`. -/
def upsertAll (allIncidents : List Incident) (repo : Database.Repository) : Database.Repository :=
  allIncidents.foldl (fun r inc => (r.UpsertIncident (toCached inc)).1) repo

/-- What a partition contributes to the merge, in the words of the
specification: the incidents of the client's answer when the fetch succeeds,
no incident when it fails. -/
def partitionResult (pd : PagerDutyService) (w : World) (filters : IncidentFilters) :
    List Incident :=
  match w.listIncidents (pd.listOptions w filters) with
  | .ok resp => resp.map (pd.convertIncident w)
  | .error _ => []

/-- The value `allIncidents` of `poll`: the three slices the fetches return,
appended in the order triggered, acknowledged, resolved. -/
def mergedIncidents (pd : PagerDutyService) (w : World) (filters : IncidentFilters) :
    List Incident :=
  ((pd.FetchIncidents w (triggeredFilters filters)).1 ++
    (pd.FetchIncidents w (acknowledgedFilters filters)).1) ++
    (pd.FetchIncidents w (resolvedFilters w filters)).1

/-- The trace of a tick that gets past the check of the enabled services, up to
the end of the cache loop. -/
def tickTrace (pd : PagerDutyService) (w : World) (filters : IncidentFilters)
    (redirectEnabled : String) (newIncidents : List Incident) : List Effect :=
  ((([Effect.ListIncidents (pd.listOptions w (triggeredFilters filters)),
      Effect.ListIncidents (pd.listOptions w (acknowledgedFilters filters)),
      Effect.ListIncidents (pd.listOptions w (resolvedFilters w filters))] ++
    (logFetchError "triggered" (pd.FetchIncidents w (triggeredFilters filters)).2 ++
      logFetchError "acknowledged" (pd.FetchIncidents w (acknowledgedFilters filters)).2 ++
      logFetchError "resolved" (pd.FetchIncidents w (resolvedFilters w filters)).2)) ++
    newIncidents.flatMap (alertCalls redirectEnabled)) ++
    (mergedIncidents pd w filters).map (fun inc => Effect.UpsertIncident (toCached inc)))

/-- The cache-writing part of a tick: the upserts of the merged list followed
by `CleanOldIncidents`. -/
def cacheWrite (repo : Database.Repository) (tick : List Incident × Time) : Database.Repository :=
  ((upsertAll tick.1 repo).CleanOldIncidents tick.2).1

/-! ## Concrete values for the scenarios -/

/-- An incident of which only the identifier and the status are filled in. -/
def incidentOf (id status : String) : Incident :=
  { ID := id, ServiceID := "", Status := status, Title := "", Description := "", Urgency := "",
    IncidentNumber := 0, CreatedAt := 0, UpdatedAt := 0, AssignedUserIDs := [],
    EscalationLevel := 0, HTMLURL := "" }

/-- A poller that has just been made by `NewIncidentPoller`: interval of three
seconds, empty snapshot. -/
def newPoller : IncidentPoller :=
  { interval := 3 * 1000000000, lastIncidents := GoMap.empty }

/-- The first tick of the scenario: `[A(triggered), B(acknowledged)]` diffed
against the empty snapshot. -/
def scenarioTick1 : List Incident × IncidentPoller :=
  newPoller.detectNewIncidents [incidentOf "A" "triggered", incidentOf "B" "acknowledged"]

/-- The second tick of the scenario: `[A(acknowledged), B(acknowledged)]`. -/
def scenarioTick2 : List Incident × IncidentPoller :=
  scenarioTick1.2.detectNewIncidents
    [incidentOf "A" "acknowledged", incidentOf "B" "acknowledged"]

/-- The third tick of the scenario: `[A(triggered)]`. -/
def scenarioTick3 : List Incident × IncidentPoller :=
  scenarioTick2.2.detectNewIncidents [incidentOf "A" "triggered"]

/-- A world in which the remote answers the fetch of the triggered partition
with one incident, the fetch of the acknowledged partition with none, and fails
the fetch of the resolved partition. -/
def sampleWorld : World :=
  { listIncidents := fun opts =>
      if opts.Statuses = ["triggered"] then
        .ok [{ ID := "A", ServiceID := "S1", Status := "triggered", Title := "disk full",
               Description := "", Urgency := "high", IncidentNumber := 7,
               CreatedAt := "", LastStatusChangeAt := "", Assignments := ["U1"],
               HTMLURL := "https://example.test/incidents/A" }]
      else if opts.Statuses = ["acknowledged"] then .ok []
      else .error "timeout"
    timeParse := fun _ => none
    timeFormat := fun _ => ""
    nowFetch := Time.utc (100 * hour)
    nowClean := Time.utc (100 * hour) }

/-- The incident of the sample world, as `convertIncident` returns it. -/
def sampleIncident : Incident :=
  { ID := "A", ServiceID := "S1", Status := "triggered", Title := "disk full", Description := "",
    Urgency := "high", IncidentNumber := 7, CreatedAt := 0, UpdatedAt := 0,
    AssignedUserIDs := ["U1"], EscalationLevel := 0, HTMLURL := "https://example.test/incidents/A" }

/-- A service handle with a known user. -/
def samplePagerDuty : PagerDutyService := { userID := "U1", userEmail := "u1@example.test" }

/-- An open repository with one enabled service, the redirect turned on and an
empty cache. -/
def sampleRepository : Database.Repository :=
  { closed := false
    settings := [{ Key := "redirect_enabled", Value := "true" }]
    services := [{ ID := "S1", Alias := "payments", Enabled := true }]
    incidents := [] }

/-- An open repository whose only service is disabled. -/
def idleRepository : Database.Repository :=
  { closed := false
    settings := []
    services := [{ ID := "S1", Alias := "payments", Enabled := false }]
    incidents := [] }

/-- A cached incident that is pinned. -/
def pinnedRow : Database.CachedIncident :=
  { ID := "A", ServiceID := "S1", Status := "resolved", Title := "disk full", Description := "",
    Urgency := "high", IncidentNumber := 7, CreatedAt := 1, UpdatedAt := 2, Pinned := true,
    AssignedUserIDs := ["U1"], EscalationLevel := 0, HTMLURL := "https://example.test/incidents/A" }

/-- An incoming row with the identifier of the pinned incident and other
values in every other field. -/
def incomingRow : Database.CachedIncident :=
  { ID := "A", ServiceID := "S2", Status := "triggered", Title := "disk failing",
    Description := "again", Urgency := "low", IncidentNumber := 8, CreatedAt := 5, UpdatedAt := 6,
    Pinned := false, AssignedUserIDs := ["U2"], EscalationLevel := 1,
    HTMLURL := "https://example.test/incidents/other" }

/-- An open repository whose cache holds the pinned incident. -/
def pinnedRepository : Database.Repository :=
  { closed := false, settings := [], services := [], incidents := [pinnedRow] }

/-- A resolved cached incident last updated at the given instant. -/
def resolvedRow (id : String) (updatedAt : Time) : Database.CachedIncident :=
  { ID := id, ServiceID := "S1", Status := "resolved", Title := "", Description := "",
    Urgency := "low", IncidentNumber := 1, CreatedAt := 0, UpdatedAt := updatedAt, Pinned := false,
    AssignedUserIDs := [], EscalationLevel := 0, HTMLURL := "" }

/-- An open repository whose cache holds two resolved incidents, one updated at
hour 53 and one at hour 51, both read in UTC. -/
def agingRepository : Database.Repository :=
  { closed := false, settings := [], services := [],
    incidents := [resolvedRow "R47" (Time.utc (53 * hour)),
      resolvedRow "R49" (Time.utc (51 * hour))] }

/-- A service handle whose current user identifier is empty. -/
def anonymousPagerDuty : PagerDutyService := { userID := "", userEmail := "" }

/-- An open repository with one enabled service and the setting
`assigned_only` turned on. -/
def assignedRepository : Database.Repository :=
  { closed := false
    settings := [{ Key := "assigned_only", Value := "true" }]
    services := [{ ID := "S1", Alias := "payments", Enabled := true }]
    incidents := [] }

/-- A codec that writes a text as it is; like `base64.StdEncoding` it decodes
what it encodes and does not shorten. -/
def plainCodec : Base64 :=
  { EncodeToString := fun v => v, DecodeString := fun t => Except.ok t }

/-- A remote that rejects every key. -/
def rejectingRemote : Remote :=
  { base64 := plainCodec, getCurrentUser := fun _ => Except.error "unauthorized" }

/-- An application whose service is initialised and whose poller is running. -/
def runningApp : App :=
  { repository := sampleRepository
    pd := some samplePagerDuty
    poller := some NewIncidentPoller }

/-- An application left with a poller that has been stopped, as after a
reinitialisation that failed. -/
def staleApp : App :=
  { repository := sampleRepository
    pd := some samplePagerDuty
    poller := some { NewIncidentPoller with stopCh := Chan.closed } }

/-- Settings that carry the unmasked key given. -/
def settingsWithKey (apiKey : String) : AppSettings :=
  { APIKey := apiKey, Theme := "dark", AssignedOnly := false, RedirectEnabled := true,
    SoundPath := "", SoundEnabled := false }

/-- An application in whose repository the key given is stored. -/
def appWithKey (apiKey : String) : App :=
  { repository := (sampleRepository.SetSetting plainCodec Database.SettingAPIKey apiKey).1 }

/-- The state right after `Start()`: the goroutine is launched, nothing has
happened yet. -/
def loopStart : LoopState :=
  { phase := LoopPhase.launched, poller := NewIncidentPoller, pd := samplePagerDuty,
    repository := sampleRepository, tickPending := false, log := [] }

/-- Hour 100, read in a location nine hours east of UTC. -/
def tokyoNow : Time := { instant := 100 * hour, offset := 9 * 3600 }

/-- Two ticks with the cut-off at hour 52: the first merges nothing, the second
merges the incident `A` of the sample world. -/
def pruningTicks : List (List Incident × Time) :=
  [([], Time.utc (52 * hour)), ([sampleIncident], Time.utc (52 * hour))]

open Database

/-! ## Lemmas on Go maps -/

theorem GoMap.get_filter_ne {β : Type} (m : GoMap β) (k k' : String) (h : k ≠ k') :
    GoMap.get (m.filter (fun e => decide (e.1 ≠ k))) k' = GoMap.get m k' := by
  induction m with
  | nil => rfl
  | cons e m ih =>
    obtain ⟨a, v⟩ := e
    simp only [ne_eq, decide_not] at ih ⊢
    by_cases ha : a = k
    · subst ha
      simp [List.filter, GoMap.get, ih, h]
    · by_cases hk : a = k'
      · subst hk
        simp [List.filter, GoMap.get, ha]
      · simp [List.filter, GoMap.get, ha, hk, ih]

theorem GoMap.get_set {β : Type} (m : GoMap β) (k k' : String) (v : β) :
    GoMap.get (m.set k v) k' = if k = k' then some v else GoMap.get m k' := by
  by_cases h : k = k'
  · simp [GoMap.set, GoMap.get, h]
  · have hf := GoMap.get_filter_ne m k k' h
    simp only [ne_eq, decide_not] at hf
    simp [GoMap.set, GoMap.get, h, hf]

theorem GoMap.mem_keys_iff {β : Type} (m : GoMap β) (k : String) :
    k ∈ m.keys ↔ ∃ v, GoMap.get m k = some v := by
  induction m with
  | nil => simp [GoMap.keys, GoMap.get]
  | cons e m ih =>
    obtain ⟨a, v⟩ := e
    by_cases ha : a = k
    · simp [GoMap.keys, GoMap.get, ha]
    · have hk : ¬ k = a := fun h => ha h.symm
      simp only [GoMap.keys, List.map_cons, List.mem_cons, hk, false_or, GoMap.get, ha, if_false]
      simpa [GoMap.keys] using ih

theorem GoMap.get_eq_none_iff {β : Type} (m : GoMap β) (k : String) :
    GoMap.get m k = none ↔ k ∉ m.keys := by
  rw [GoMap.mem_keys_iff]
  cases h : GoMap.get m k <;> simp

/-! ## Lemmas on the diff -/

theorem foldl_detectStep (S : GoMap Incident) (L : List Incident) (acc : List Incident)
    (m : GoMap Incident) :
    L.foldl (detectStep S) (acc, m) = (acc ++ L.filter (newlyRelevant S), buildMap L m) := by
  induction L generalizing acc m with
  | nil => simp [buildMap]
  | cons inc L ih =>
    simp only [List.foldl_cons, buildMap]
    cases hget : S.get inc.ID with
    | none =>
      have hstep : detectStep S (acc, m) inc = (acc ++ [inc], m.set inc.ID inc) := by
        simp [detectStep, hget]
      rw [hstep, ih]
      simp [newlyRelevant, hget, List.filter, buildMap]
    | some lastInc =>
      by_cases hc : lastInc.Status ≠ inc.Status ∧ inc.Status = "triggered"
      · have hstep : detectStep S (acc, m) inc = (acc ++ [inc], m.set inc.ID inc) := by
          simp only [detectStep, hget, if_pos hc]
        have hrel : newlyRelevant S inc = true := by
          simp only [newlyRelevant, hget]
          simpa using hc
        rw [hstep, ih, List.filter_cons_of_pos hrel]
        simp [buildMap]
      · have hstep : detectStep S (acc, m) inc = (acc, m.set inc.ID inc) := by
          simp only [detectStep, hget, if_neg hc]
        have hrel : ¬ newlyRelevant S inc = true := by
          simp only [newlyRelevant, hget]
          simpa using hc
        rw [hstep, ih, List.filter_cons_of_neg hrel]
        simp [buildMap]

theorem detectNewIncidents_fst (p : IncidentPoller) (L : List Incident) :
    (p.detectNewIncidents L).1 = L.filter (newlyRelevant p.lastIncidents) := by
  simp [IncidentPoller.detectNewIncidents, foldl_detectStep]

theorem detectNewIncidents_snd (p : IncidentPoller) (L : List Incident) :
    (p.detectNewIncidents L).2 = { p with lastIncidents := buildMap L GoMap.empty } := by
  simp [IncidentPoller.detectNewIncidents, foldl_detectStep]

theorem get_buildMap_some (L : List Incident) (m : GoMap Incident) (k : String) (b : Incident)
    (h : GoMap.get (buildMap L m) k = some b) :
    (b ∈ L ∧ b.ID = k) ∨ GoMap.get m k = some b := by
  induction L generalizing m with
  | nil => exact Or.inr h
  | cons a L ih =>
    have h' : GoMap.get (buildMap L (m.set a.ID a)) k = some b := h
    rcases ih _ h' with ⟨hb, hk⟩ | hm
    · exact Or.inl ⟨List.mem_cons_of_mem _ hb, hk⟩
    · rw [GoMap.get_set] at hm
      by_cases hak : a.ID = k
      · rw [if_pos hak] at hm
        have hab : a = b := Option.some.inj hm
        subst hab
        exact Or.inl ⟨List.mem_cons_self _ _, hak⟩
      · rw [if_neg hak] at hm
        exact Or.inr hm

theorem get_buildMap_of_get (L : List Incident) (m : GoMap Incident) (k : String)
    (h : ∃ v, GoMap.get m k = some v) : ∃ b, GoMap.get (buildMap L m) k = some b := by
  induction L generalizing m with
  | nil => exact h
  | cons a L ih =>
    apply ih (m.set a.ID a)
    rw [GoMap.get_set]
    by_cases hak : a.ID = k
    · exact ⟨a, by rw [if_pos hak]⟩
    · rw [if_neg hak]; exact h

theorem get_buildMap_of_mem (L : List Incident) (m : GoMap Incident) (inc : Incident)
    (h : inc ∈ L) : ∃ b, GoMap.get (buildMap L m) inc.ID = some b := by
  induction L generalizing m with
  | nil => cases h
  | cons a L ih =>
    rcases List.mem_cons.mp h with rfl | hin
    · exact get_buildMap_of_get L (m.set inc.ID inc) inc.ID ⟨inc, by rw [GoMap.get_set, if_pos rfl]⟩
    · exact ih (m.set a.ID a) hin

/-! ## The Diff Engine -/

/-- C1: `detectNewIncidents` returns exactly the incidents of the merged list,
in order and with their multiplicity, that are newly relevant for the snapshot
held before the call: those whose identifier is not a key of it, and those
whose identifier is a key with a stored status different from their own while
their own status is `triggered`. -/
theorem detectNewIncidents_returns_newly_relevant (p : IncidentPoller) (L : List Incident) :
    (∀ inc : Incident, newlyRelevant p.lastIncidents inc = true ↔
      (inc.ID ∉ p.lastIncidents.keys ∨
        ∃ lastInc, p.lastIncidents.get inc.ID = some lastInc ∧
          lastInc.Status ≠ inc.Status ∧ inc.Status = "triggered")) ∧
    (p.detectNewIncidents L).1 = L.filter (newlyRelevant p.lastIncidents) := by
  refine ⟨fun inc => ?_, detectNewIncidents_fst p L⟩
  rw [← GoMap.get_eq_none_iff]
  cases hget : p.lastIncidents.get inc.ID with
  | none => simp [newlyRelevant, hget]
  | some lastInc => simp [newlyRelevant, hget]

/-- C2: after `detectNewIncidents` the keys of the snapshot are exactly the
identifiers that occur in the merged list; a key of the former snapshot that
does not occur in the list is gone. -/
theorem detectNewIncidents_snapshot_keys (p : IncidentPoller) (L : List Incident) :
    (∀ k : String, k ∈ (p.detectNewIncidents L).2.lastIncidents.keys ↔
      k ∈ L.map (fun inc => inc.ID)) ∧
    (∀ k : String, k ∈ p.lastIncidents.keys → k ∉ L.map (fun inc => inc.ID) →
      k ∉ (p.detectNewIncidents L).2.lastIncidents.keys) := by
  have key : ∀ k : String, k ∈ (p.detectNewIncidents L).2.lastIncidents.keys ↔
      k ∈ L.map (fun inc => inc.ID) := by
    intro k
    rw [detectNewIncidents_snd, GoMap.mem_keys_iff]
    constructor
    · rintro ⟨b, hb⟩
      rcases get_buildMap_some L GoMap.empty k b hb with ⟨hmem, hid⟩ | hemp
      · exact List.mem_map.mpr ⟨b, hmem, hid⟩
      · simp [GoMap.empty, GoMap.get] at hemp
    · intro hk
      obtain ⟨inc, hmem, hid⟩ := List.mem_map.mp hk
      subst hid
      exact get_buildMap_of_mem L GoMap.empty inc hmem
  exact ⟨key, fun k _ hk hin => hk ((key k).mp hin)⟩

/-- C3: the scenario of three ticks. From the empty snapshot, the merged list
`[A(triggered), B(acknowledged)]` gives the newly relevant list `[A, B]` and the
keys `A`, `B`; then `[A(acknowledged), B(acknowledged)]` gives nothing newly
relevant and the keys `A`, `B`; then `[A(triggered)]` gives `[A]` and the key
`A` alone. -/
theorem three_tick_scenario :
    scenarioTick1.1 = [incidentOf "A" "triggered", incidentOf "B" "acknowledged"] ∧
    (∀ k : String, k ∈ scenarioTick1.2.lastIncidents.keys ↔ k = "A" ∨ k = "B") ∧
    scenarioTick2.1 = [] ∧
    (∀ k : String, k ∈ scenarioTick2.2.lastIncidents.keys ↔ k = "A" ∨ k = "B") ∧
    scenarioTick3.1 = [incidentOf "A" "triggered"] ∧
    (∀ k : String, k ∈ scenarioTick3.2.lastIncidents.keys ↔ k = "A") := by
  have h1 : scenarioTick1.2.lastIncidents.keys = ["B", "A"] := by decide
  have h2 : scenarioTick2.2.lastIncidents.keys = ["B", "A"] := by decide
  have h3 : scenarioTick3.2.lastIncidents.keys = ["A"] := by decide
  refine ⟨by decide, ?_, by decide, ?_, by decide, ?_⟩
  · intro k
    rw [h1]
    simp [or_comm]
  · intro k
    rw [h2]
    simp [or_comm]
  · intro k
    rw [h3]
    simp

/-- C4, as stated, fails: when the merged list holds the identifier `A` twice,
first as `triggered` and then as `acknowledged`, diffing the same list a second
time returns the triggered `A` again, and the alert loop plays the sound for
it. -/
theorem repeated_diff_counterexample :
    ((newPoller.detectNewIncidents
        [incidentOf "A" "triggered", incidentOf "A" "acknowledged"]).2.detectNewIncidents
        [incidentOf "A" "triggered", incidentOf "A" "acknowledged"]).1
      = [incidentOf "A" "triggered"] ∧
    handleNewIncidents "true"
      ((newPoller.detectNewIncidents
        [incidentOf "A" "triggered", incidentOf "A" "acknowledged"]).2.detectNewIncidents
        [incidentOf "A" "triggered", incidentOf "A" "acknowledged"]).1 []
      = [Effect.PlayAlert] := by
  constructor <;> decide

/-- C4, amended: when the incidents of the merged list that share an identifier
share their status (so in particular when the identifiers are pairwise
distinct), diffing the same list on two successive ticks returns nothing
newly relevant the second time, and the alert loop makes no call. -/
theorem repeated_diff_is_empty (p : IncidentPoller) (L : List Incident)
    (hL : ∀ a ∈ L, ∀ b ∈ L, a.ID = b.ID → a.Status = b.Status) :
    ((p.detectNewIncidents L).2.detectNewIncidents L).1 = [] ∧
    ∀ (redirectEnabled : String) (tr : List Effect),
      handleNewIncidents redirectEnabled
        ((p.detectNewIncidents L).2.detectNewIncidents L).1 tr = tr := by
  have hnil : ((p.detectNewIncidents L).2.detectNewIncidents L).1 = [] := by
    rw [detectNewIncidents_fst, detectNewIncidents_snd, List.filter_eq_nil_iff]
    intro a ha
    obtain ⟨b, hb⟩ := get_buildMap_of_mem L GoMap.empty a ha
    rcases get_buildMap_some L GoMap.empty a.ID b hb with ⟨hmem, hid⟩ | hemp
    · have hst : b.Status = a.Status := hL b hmem a ha hid
      simp [newlyRelevant, hb, hst]
    · simp [GoMap.empty, GoMap.get] at hemp
  refine ⟨hnil, fun redirectEnabled tr => ?_⟩
  rw [hnil]
  rfl

/-- The amended C4 at a list of two incidents with distinct identifiers. -/
theorem repeated_diff_is_empty_witness :
    (∀ a ∈ [incidentOf "A" "triggered", incidentOf "B" "acknowledged"],
      ∀ b ∈ [incidentOf "A" "triggered", incidentOf "B" "acknowledged"],
        a.ID = b.ID → a.Status = b.Status) ∧
    ((newPoller.detectNewIncidents
        [incidentOf "A" "triggered", incidentOf "B" "acknowledged"]).2.detectNewIncidents
        [incidentOf "A" "triggered", incidentOf "B" "acknowledged"]).1 = [] :=
  ⟨by decide, (repeated_diff_is_empty newPoller
    [incidentOf "A" "triggered", incidentOf "B" "acknowledged"] (by decide)).1⟩

/-! ## Lemmas on the tick -/

theorem foldl_append_eq_flatMap {α β : Type} (f : α → List β) (L : List α) (acc : List β) :
    L.foldl (fun tr x => tr ++ f x) acc = acc ++ L.flatMap f := by
  induction L generalizing acc with
  | nil => simp
  | cons x L ih => simp [List.foldl_cons, ih, List.flatMap_cons, List.append_assoc]

theorem handleNewIncidents_eq (redirectEnabled : String) (N : List Incident) (tr : List Effect) :
    handleNewIncidents redirectEnabled N tr = tr ++ N.flatMap (alertCalls redirectEnabled) :=
  foldl_append_eq_flatMap (alertCalls redirectEnabled) N tr

theorem cacheIncidents_eq (L : List Incident) (repo : Database.Repository) (tr : List Effect) :
    cacheIncidents L (repo, tr) =
      (upsertAll L repo, tr ++ L.map (fun inc => Effect.UpsertIncident (toCached inc))) := by
  induction L generalizing repo tr with
  | nil => simp [cacheIncidents, upsertAll]
  | cons inc L ih =>
    have h := ih (repo.UpsertIncident (toCached inc)).1 (tr ++ [Effect.UpsertIncident (toCached inc)])
    simp only [cacheIncidents, upsertAll, List.foldl_cons] at h ⊢
    rw [h]
    simp

theorem FetchIncidents_fst (pd : PagerDutyService) (w : World) (filters : IncidentFilters) :
    (pd.FetchIncidents w filters).1 = partitionResult pd w filters := by
  unfold PagerDutyService.FetchIncidents partitionResult
  cases w.listIncidents (pd.listOptions w filters) <;> rfl

theorem poll_eq (p : IncidentPoller) (pd : PagerDutyService) (w : World)
    (repo : Database.Repository) (services : List Database.Service)
    (hget : repo.GetServices = (services, none)) (hen : enabledServiceIDs services ≠ []) :
    p.poll pd w repo =
      ⟨(p.detectNewIncidents (mergedIncidents pd w
          (pollFilters (repo.GetSetting Database.SettingAssignedOnly).1 services))).2,
        cacheWrite repo (mergedIncidents pd w
          (pollFilters (repo.GetSetting Database.SettingAssignedOnly).1 services),
          w.nowClean + (-48) * hour),
        tickTrace pd w (pollFilters (repo.GetSetting Database.SettingAssignedOnly).1 services)
          (repo.GetSetting Database.SettingRedirectEnabled).1
          (p.detectNewIncidents (mergedIncidents pd w
            (pollFilters (repo.GetSetting Database.SettingAssignedOnly).1 services))).1 ++
        [Effect.CleanOldIncidents (w.nowClean + (-48) * hour),
          Effect.EventsEmit "incidents:updated"
            { incidents := mergedIncidents pd w
                (pollFilters (repo.GetSetting Database.SettingAssignedOnly).1 services)
              newIncidents := (p.detectNewIncidents (mergedIncidents pd w
                (pollFilters (repo.GetSetting Database.SettingAssignedOnly).1 services))).1
              totalCount := (mergedIncidents pd w
                (pollFilters (repo.GetSetting Database.SettingAssignedOnly).1 services)).length
              triggeredCount := (pd.FetchIncidents w (triggeredFilters
                (pollFilters (repo.GetSetting Database.SettingAssignedOnly).1 services))).1.length
              acknowledgedCount := (pd.FetchIncidents w (acknowledgedFilters
                (pollFilters (repo.GetSetting Database.SettingAssignedOnly).1 services))).1.length
              resolvedCount := (pd.FetchIncidents w (resolvedFilters w
                (pollFilters (repo.GetSetting Database.SettingAssignedOnly).1 services))).1.length }]⟩ := by
  have hlen : ¬ (enabledServiceIDs services).length = 0 := by
    simpa [List.length_eq_zero] using hen
  unfold IncidentPoller.poll
  rw [hget]
  simp only [hlen, if_false, cacheIncidents_eq, handleNewIncidents_eq]
  simp only [mergedIncidents, tickTrace, cacheWrite]
  split <;> simp_all

/-! ## Lemmas on reading a trace -/

theorem playAlertCount_append (a b : List Effect) :
    playAlertCount (a ++ b) = playAlertCount a + playAlertCount b := by
  simp [playAlertCount]

theorem openedURLs_append (a b : List Effect) :
    openedURLs (a ++ b) = openedURLs a ++ openedURLs b := by
  simp [openedURLs]

theorem eventsEmitted_append (a b : List Effect) :
    eventsEmitted (a ++ b) = eventsEmitted a ++ eventsEmitted b := by
  simp [eventsEmitted]

theorem upsertCalls_append (a b : List Effect) :
    upsertCalls (a ++ b) = upsertCalls a ++ upsertCalls b := by
  simp [upsertCalls]

theorem cleanCalls_append (a b : List Effect) :
    cleanCalls (a ++ b) = cleanCalls a ++ cleanCalls b := by
  simp [cleanCalls]

theorem logFetchError_reads (what : String) (err : Option String) :
    playAlertCount (logFetchError what err) = 0 ∧ openedURLs (logFetchError what err) = [] ∧
    eventsEmitted (logFetchError what err) = [] ∧ upsertCalls (logFetchError what err) = [] ∧
    cleanCalls (logFetchError what err) = [] := by
  cases err <;>
    simp [logFetchError, playAlertCount, openedURLs, eventsEmitted, upsertCalls, cleanCalls]

theorem alertCalls_reads (redirectEnabled : String) (N : List Incident) :
    eventsEmitted (N.flatMap (alertCalls redirectEnabled)) = [] ∧
    upsertCalls (N.flatMap (alertCalls redirectEnabled)) = [] ∧
    cleanCalls (N.flatMap (alertCalls redirectEnabled)) = [] := by
  induction N with
  | nil => simp [eventsEmitted, upsertCalls, cleanCalls]
  | cons inc N ih =>
    obtain ⟨h1, h2, h3⟩ := ih
    simp only [List.flatMap_cons, eventsEmitted_append, upsertCalls_append, cleanCalls_append,
      h1, h2, h3, List.append_nil]
    unfold alertCalls
    split_ifs <;> simp [eventsEmitted, upsertCalls, cleanCalls]

theorem playAlertCount_alertCalls (redirectEnabled : String) (N : List Incident) :
    playAlertCount (N.flatMap (alertCalls redirectEnabled)) =
      (N.filter (fun inc => decide (inc.Status = "triggered"))).length := by
  induction N with
  | nil => simp [playAlertCount]
  | cons inc N ih =>
    simp only [List.flatMap_cons, playAlertCount_append, ih]
    by_cases ht : inc.Status = "triggered"
    · rw [List.filter_cons_of_pos (by simpa using ht)]
      unfold alertCalls
      split_ifs <;> simp [playAlertCount, Nat.add_comm]
    · rw [List.filter_cons_of_neg (by simpa using ht)]
      simp [alertCalls, ht, playAlertCount]

theorem openedURLs_alertCalls_on (N : List Incident) :
    openedURLs (N.flatMap (alertCalls "true")) =
      (N.filter (fun inc => decide (inc.Status = "triggered") && decide (inc.HTMLURL ≠ ""))).map
        (fun inc => inc.HTMLURL) := by
  induction N with
  | nil => simp [openedURLs]
  | cons inc N ih =>
    simp only [List.flatMap_cons, openedURLs_append, ih]
    by_cases ht : inc.Status = "triggered"
    · by_cases hu : inc.HTMLURL = ""
      · rw [List.filter_cons_of_neg (by simp [ht, hu])]
        simp [alertCalls, ht, hu, openedURLs]
      · rw [List.filter_cons_of_pos (by simp [ht, hu])]
        simp [alertCalls, ht, hu, openedURLs]
    · rw [List.filter_cons_of_neg (by simp [ht])]
      simp [alertCalls, ht, openedURLs]

theorem openedURLs_alertCalls_off (redirectEnabled : String) (h : redirectEnabled ≠ "true")
    (N : List Incident) : openedURLs (N.flatMap (alertCalls redirectEnabled)) = [] := by
  induction N with
  | nil => simp [openedURLs]
  | cons inc N ih =>
    simp only [List.flatMap_cons, openedURLs_append, ih, List.append_nil]
    by_cases ht : inc.Status = "triggered"
    · simp [alertCalls, ht, h, openedURLs]
    · simp [alertCalls, ht, openedURLs]

theorem upsertEffects_reads (L : List Incident) :
    playAlertCount (L.map (fun inc => Effect.UpsertIncident (toCached inc))) = 0 ∧
    openedURLs (L.map (fun inc => Effect.UpsertIncident (toCached inc))) = [] ∧
    eventsEmitted (L.map (fun inc => Effect.UpsertIncident (toCached inc))) = [] ∧
    upsertCalls (L.map (fun inc => Effect.UpsertIncident (toCached inc))) = L.map toCached ∧
    cleanCalls (L.map (fun inc => Effect.UpsertIncident (toCached inc))) = [] := by
  induction L with
  | nil => simp [playAlertCount, openedURLs, eventsEmitted, upsertCalls, cleanCalls]
  | cons inc L ih =>
    obtain ⟨h1, h2, h3, h4, h5⟩ := ih
    simp only [playAlertCount, openedURLs, eventsEmitted, upsertCalls, cleanCalls] at h1 h2 h3 h4 h5 ⊢
    simp [h1, h2, h3, h4, h5]

theorem tickTrace_reads (pd : PagerDutyService) (w : World) (filters : IncidentFilters)
    (redirectEnabled : String) (N : List Incident) :
    playAlertCount (tickTrace pd w filters redirectEnabled N) =
      playAlertCount (N.flatMap (alertCalls redirectEnabled)) ∧
    openedURLs (tickTrace pd w filters redirectEnabled N) =
      openedURLs (N.flatMap (alertCalls redirectEnabled)) ∧
    eventsEmitted (tickTrace pd w filters redirectEnabled N) = [] ∧
    upsertCalls (tickTrace pd w filters redirectEnabled N) =
      (mergedIncidents pd w filters).map toCached ∧
    cleanCalls (tickTrace pd w filters redirectEnabled N) = [] := by
  obtain ⟨a1, a2, a3, a4, a5⟩ :=
    logFetchError_reads "triggered" (pd.FetchIncidents w (triggeredFilters filters)).2
  obtain ⟨b1, b2, b3, b4, b5⟩ :=
    logFetchError_reads "acknowledged" (pd.FetchIncidents w (acknowledgedFilters filters)).2
  obtain ⟨c1, c2, c3, c4, c5⟩ :=
    logFetchError_reads "resolved" (pd.FetchIncidents w (resolvedFilters w filters)).2
  obtain ⟨d1, d2, d3⟩ := alertCalls_reads redirectEnabled N
  obtain ⟨e1, e2, e3, e4, e5⟩ := upsertEffects_reads (mergedIncidents pd w filters)
  unfold tickTrace
  simp only [playAlertCount_append, openedURLs_append, eventsEmitted_append, upsertCalls_append,
    cleanCalls_append, a1, a2, a3, a4, a5, b1, b2, b3, b4, b5, c1, c2, c3, c4, c5, d1, d2, d3,
    e1, e2, e3, e4, e5]
  simp [playAlertCount, openedURLs, eventsEmitted, upsertCalls, cleanCalls]

/-! ## The tick -/

/-- C5: when the repository returns a list of services none of which is
enabled (the empty list included), `poll` returns having made no call at all:
no fetch, no `UpsertIncident`, no `CleanOldIncidents`, no event, no sound, no
browser; the snapshot and the repository are as before. -/
theorem poll_without_enabled_service (p : IncidentPoller) (pd : PagerDutyService) (w : World)
    (repo : Database.Repository) (services : List Database.Service)
    (hget : repo.GetServices = (services, none))
    (hnone : ∀ svc ∈ services, svc.Enabled = false) :
    p.poll pd w repo = ⟨p, repo, []⟩ ∧
    fetchCalls (p.poll pd w repo).effects = [] ∧
    upsertCalls (p.poll pd w repo).effects = [] ∧
    cleanCalls (p.poll pd w repo).effects = [] ∧
    eventsEmitted (p.poll pd w repo).effects = [] ∧
    playAlertCount (p.poll pd w repo).effects = 0 ∧
    openedURLs (p.poll pd w repo).effects = [] ∧
    (p.poll pd w repo).poller.lastIncidents = p.lastIncidents := by
  have hen : enabledServiceIDs services = [] := by
    unfold enabledServiceIDs
    rw [List.map_eq_nil_iff, List.filter_eq_nil_iff]
    intro svc hsvc
    simp [hnone svc hsvc]
  have hpoll : p.poll pd w repo = ⟨p, repo, []⟩ := by
    unfold IncidentPoller.poll
    rw [hget]
    simp [hen]
  rw [hpoll]
  exact ⟨rfl, rfl, rfl, rfl, rfl, rfl, rfl, rfl⟩

/-- C5 at a repository whose only service is disabled. -/
theorem poll_without_enabled_service_witness :
    idleRepository.GetServices = ([{ ID := "S1", Alias := "payments", Enabled := false }], none) ∧
    (∀ svc ∈ ([{ ID := "S1", Alias := "payments", Enabled := false }] : List Database.Service),
      svc.Enabled = false) ∧
    newPoller.poll samplePagerDuty sampleWorld idleRepository = ⟨newPoller, idleRepository, []⟩ :=
  ⟨by decide, by decide,
    (poll_without_enabled_service newPoller samplePagerDuty sampleWorld idleRepository
      [{ ID := "S1", Alias := "payments", Enabled := false }] (by decide) (by decide)).1⟩

/-- C6: in a tick that gets past the check of the enabled services, whichever
of the three fetches fail, the merged list is the concatenation, in the order
triggered, acknowledged, resolved, of what the partitions contribute, a failed
partition contributing nothing; the diff is run on that list, every incident of
it is upserted, `CleanOldIncidents` is called once, and exactly one event
`incidents:updated` is emitted, carrying that list. When the resolved fetch
fails the list is the triggered partition followed by the acknowledged one. -/
theorem poll_isolates_failed_partitions (p : IncidentPoller) (pd : PagerDutyService) (w : World)
    (repo : Database.Repository) (services : List Database.Service)
    (hget : repo.GetServices = (services, none)) (hen : enabledServiceIDs services ≠ []) :
    ∃ (filters : IncidentFilters) (merged : List Incident),
      filters = pollFilters (repo.GetSetting Database.SettingAssignedOnly).1 services ∧
      merged = partitionResult pd w (triggeredFilters filters) ++
        partitionResult pd w (acknowledgedFilters filters) ++
        partitionResult pd w (resolvedFilters w filters) ∧
      (∀ f : IncidentFilters, ∀ e : String,
        w.listIncidents (pd.listOptions w f) = Except.error e →
          pd.FetchIncidents w f = ([], some ("failed to fetch incidents: " ++ e)) ∧
          partitionResult pd w f = []) ∧
      (∀ f : IncidentFilters, ∀ resp : List PDIncident,
        w.listIncidents (pd.listOptions w f) = Except.ok resp →
          pd.FetchIncidents w f = (resp.map (pd.convertIncident w), none) ∧
          partitionResult pd w f = resp.map (pd.convertIncident w)) ∧
      (p.poll pd w repo).poller = (p.detectNewIncidents merged).2 ∧
      upsertCalls (p.poll pd w repo).effects = merged.map toCached ∧
      (p.poll pd w repo).repository = cacheWrite repo (merged, w.nowClean + (-48) * hour) ∧
      cleanCalls (p.poll pd w repo).effects = [w.nowClean + (-48) * hour] ∧
      (eventsEmitted (p.poll pd w repo).effects).map (fun e => (e.1, e.2.incidents)) =
        [("incidents:updated", merged)] ∧
      ((∃ e : String, w.listIncidents (pd.listOptions w (resolvedFilters w filters)) =
          Except.error e) →
        merged = partitionResult pd w (triggeredFilters filters) ++
          partitionResult pd w (acknowledgedFilters filters)) := by
  have hmerged : mergedIncidents pd w
      (pollFilters (repo.GetSetting Database.SettingAssignedOnly).1 services) =
      partitionResult pd w (triggeredFilters
        (pollFilters (repo.GetSetting Database.SettingAssignedOnly).1 services)) ++
      partitionResult pd w (acknowledgedFilters
        (pollFilters (repo.GetSetting Database.SettingAssignedOnly).1 services)) ++
      partitionResult pd w (resolvedFilters w
        (pollFilters (repo.GetSetting Database.SettingAssignedOnly).1 services)) := by
    simp only [mergedIncidents, FetchIncidents_fst]
  obtain ⟨_, _, r3, r4, r5⟩ := tickTrace_reads pd w
    (pollFilters (repo.GetSetting Database.SettingAssignedOnly).1 services)
    (repo.GetSetting Database.SettingRedirectEnabled).1
    (p.detectNewIncidents (mergedIncidents pd w
      (pollFilters (repo.GetSetting Database.SettingAssignedOnly).1 services))).1
  refine ⟨_, _, rfl, rfl, ?_, ?_, ?_, ?_, ?_, ?_, ?_, ?_⟩
  · intro f e he
    simp [PagerDutyService.FetchIncidents, partitionResult, he]
  · intro f resp hresp
    simp [PagerDutyService.FetchIncidents, partitionResult, hresp]
  · rw [poll_eq p pd w repo services hget hen, hmerged]
  · rw [poll_eq p pd w repo services hget hen]
    simp only [upsertCalls_append, r4]
    simp [upsertCalls, hmerged]
  · rw [poll_eq p pd w repo services hget hen, hmerged]
  · rw [poll_eq p pd w repo services hget hen]
    simp only [cleanCalls_append, r5]
    simp [cleanCalls]
  · rw [poll_eq p pd w repo services hget hen]
    simp only [eventsEmitted_append, r3]
    simp [eventsEmitted, hmerged]
  · rintro ⟨e, he⟩
    simp [partitionResult, he]

/-- C6 at a tick whose resolved fetch fails: one event is emitted and the
merged list is the one triggered incident the remote returned. -/
theorem poll_isolates_failed_partitions_witness :
    sampleRepository.GetServices = ([{ ID := "S1", Alias := "payments", Enabled := true }], none) ∧
    enabledServiceIDs [{ ID := "S1", Alias := "payments", Enabled := true }] ≠ [] ∧
    ∃ (filters : IncidentFilters) (merged : List Incident),
      filters = pollFilters (sampleRepository.GetSetting Database.SettingAssignedOnly).1
        [{ ID := "S1", Alias := "payments", Enabled := true }] ∧
      merged = partitionResult samplePagerDuty sampleWorld (triggeredFilters filters) ++
        partitionResult samplePagerDuty sampleWorld (acknowledgedFilters filters) ++
        partitionResult samplePagerDuty sampleWorld (resolvedFilters sampleWorld filters) ∧
      (eventsEmitted (newPoller.poll samplePagerDuty sampleWorld sampleRepository).effects).map
        (fun e => (e.1, e.2.incidents)) = [("incidents:updated", merged)] := by
  refine ⟨by decide, by decide, ?_⟩
  obtain ⟨filters, merged, h1, h2, _, _, _, _, _, _, h9, _⟩ :=
    poll_isolates_failed_partitions newPoller samplePagerDuty sampleWorld sampleRepository
      [{ ID := "S1", Alias := "payments", Enabled := true }] (by decide) (by decide)
  exact ⟨filters, merged, h1, h2, h9⟩

/-- C7: a tick that gets past the check of the enabled services emits the event
`incidents:updated` exactly once, whatever the newly relevant list is; its
payload carries the three partitions appended, the result of
`detectNewIncidents` on that list, the lengths of the three partitions, and a
total that is both their sum and the length of the list. -/
theorem poll_emits_one_update (p : IncidentPoller) (pd : PagerDutyService) (w : World)
    (repo : Database.Repository) (services : List Database.Service)
    (hget : repo.GetServices = (services, none)) (hen : enabledServiceIDs services ≠ []) :
    ∃ (filters : IncidentFilters) (payload : UpdatePayload),
      filters = pollFilters (repo.GetSetting Database.SettingAssignedOnly).1 services ∧
      eventsEmitted (p.poll pd w repo).effects = [("incidents:updated", payload)] ∧
      payload.incidents =
        (pd.FetchIncidents w (triggeredFilters filters)).1 ++
        (pd.FetchIncidents w (acknowledgedFilters filters)).1 ++
        (pd.FetchIncidents w (resolvedFilters w filters)).1 ∧
      payload.newIncidents = (p.detectNewIncidents payload.incidents).1 ∧
      payload.triggeredCount = (pd.FetchIncidents w (triggeredFilters filters)).1.length ∧
      payload.acknowledgedCount = (pd.FetchIncidents w (acknowledgedFilters filters)).1.length ∧
      payload.resolvedCount = (pd.FetchIncidents w (resolvedFilters w filters)).1.length ∧
      payload.totalCount =
        payload.triggeredCount + payload.acknowledgedCount + payload.resolvedCount ∧
      payload.totalCount = payload.incidents.length := by
  have r3 := (tickTrace_reads pd w
    (pollFilters (repo.GetSetting Database.SettingAssignedOnly).1 services)
    (repo.GetSetting Database.SettingRedirectEnabled).1
    (p.detectNewIncidents (mergedIncidents pd w
      (pollFilters (repo.GetSetting Database.SettingAssignedOnly).1 services))).1).2.2.1
  rw [poll_eq p pd w repo services hget hen]
  simp only [eventsEmitted_append, r3]
  clear r3
  simp only [eventsEmitted, List.filterMap_cons, List.filterMap_nil, List.nil_append]
  refine ⟨_, _, rfl, rfl, rfl, rfl, rfl, rfl, rfl, ?_, rfl⟩
  simp [mergedIncidents, List.length_append, Nat.add_assoc]

/-- C7 at a tick of the sample world: one event is emitted, for one triggered
incident. -/
theorem poll_emits_one_update_witness :
    sampleRepository.GetServices = ([{ ID := "S1", Alias := "payments", Enabled := true }], none) ∧
    enabledServiceIDs [{ ID := "S1", Alias := "payments", Enabled := true }] ≠ [] ∧
    ∃ payload : UpdatePayload,
      eventsEmitted (newPoller.poll samplePagerDuty sampleWorld sampleRepository).effects =
        [("incidents:updated", payload)] ∧
      payload.totalCount = payload.incidents.length := by
  refine ⟨by decide, by decide, ?_⟩
  obtain ⟨_, payload, _, h2, _, _, _, _, _, _, h9⟩ :=
    poll_emits_one_update newPoller samplePagerDuty sampleWorld sampleRepository
      [{ ID := "S1", Alias := "payments", Enabled := true }] (by decide) (by decide)
  exact ⟨payload, h2, h9⟩

/-- C8: in a tick that gets past the check of the enabled services, `PlayAlert`
is called as many times as there are `triggered` incidents in the newly
relevant list; `BrowserOpenURL` is called, in the order of that list, with the
address of each of its `triggered` incidents that has one when the setting
`redirect_enabled` read at the start of the tick is `true`, and is not called
when the setting is anything else. A tick that stops at the check calls
neither. -/
theorem poll_alerts_for_new_triggered (p : IncidentPoller) (pd : PagerDutyService) (w : World)
    (repo : Database.Repository) :
    (∀ services : List Database.Service, repo.GetServices = (services, none) →
      enabledServiceIDs services ≠ [] →
      ∃ N : List Incident,
        N = (p.detectNewIncidents (mergedIncidents pd w
          (pollFilters (repo.GetSetting Database.SettingAssignedOnly).1 services))).1 ∧
        playAlertCount (p.poll pd w repo).effects =
          (N.filter (fun inc => decide (inc.Status = "triggered"))).length ∧
        ((repo.GetSetting Database.SettingRedirectEnabled).1 = "true" →
          openedURLs (p.poll pd w repo).effects =
            (N.filter (fun inc => decide (inc.Status = "triggered") &&
              decide (inc.HTMLURL ≠ ""))).map (fun inc => inc.HTMLURL)) ∧
        ((repo.GetSetting Database.SettingRedirectEnabled).1 ≠ "true" →
          openedURLs (p.poll pd w repo).effects = [])) ∧
    ((∃ err, repo.GetServices.2 = some err) ∨ enabledServiceIDs repo.GetServices.1 = [] →
      playAlertCount (p.poll pd w repo).effects = 0 ∧
      openedURLs (p.poll pd w repo).effects = []) := by
  constructor
  · intro services hget hen
    obtain ⟨r1, r2, _, _, _⟩ := tickTrace_reads pd w
      (pollFilters (repo.GetSetting Database.SettingAssignedOnly).1 services)
      (repo.GetSetting Database.SettingRedirectEnabled).1
      (p.detectNewIncidents (mergedIncidents pd w
        (pollFilters (repo.GetSetting Database.SettingAssignedOnly).1 services))).1
    refine ⟨_, rfl, ?_, ?_, ?_⟩
    · rw [poll_eq p pd w repo services hget hen]
      simp only [playAlertCount_append, r1, playAlertCount_alertCalls]
      simp [playAlertCount]
    · intro hon
      rw [poll_eq p pd w repo services hget hen]
      simp only [openedURLs_append, r2]
      rw [hon, openedURLs_alertCalls_on]
      simp [openedURLs]
    · intro hoff
      rw [poll_eq p pd w repo services hget hen]
      simp only [openedURLs_append, r2]
      rw [openedURLs_alertCalls_off _ hoff]
      simp [openedURLs]
  · intro hskip
    unfold IncidentPoller.poll
    rcases hres : repo.GetServices with ⟨services, err⟩
    rw [hres] at hskip
    cases err with
    | some e => simp [playAlertCount, openedURLs]
    | none =>
      rcases hskip with ⟨e, he⟩ | hnil
      · simp at he
      · have hnil' : enabledServiceIDs services = [] := hnil
        simp [hnil', playAlertCount, openedURLs]

/-- C8 at a tick of the sample world, where the redirect is on: the one
triggered incident is new, the sound is played once and its address is
opened. -/
theorem poll_alerts_for_new_triggered_witness :
    playAlertCount (newPoller.poll samplePagerDuty sampleWorld sampleRepository).effects = 1 ∧
    openedURLs (newPoller.poll samplePagerDuty sampleWorld sampleRepository).effects =
      ["https://example.test/incidents/A"] := by
  obtain ⟨N, hN, hplay, hon, _⟩ :=
    (poll_alerts_for_new_triggered newPoller samplePagerDuty sampleWorld sampleRepository).1
      [{ ID := "S1", Alias := "payments", Enabled := true }] (by decide) (by decide)
  have hN' : N = [sampleIncident] := by
    rw [hN]
    decide
  rw [hplay, hon (by decide), hN']
  constructor <;> decide

/-! ## Lemmas on the cache -/

theorem incident?_mem (r : Repository) (i : String) (row : CachedIncident)
    (h : r.incident? i = some row) : row ∈ r.incidents ∧ row.ID = i := by
  unfold Repository.incident? at h
  exact ⟨List.mem_of_find?_eq_some h, by simpa using List.find?_some h⟩

theorem incident?_of_mem (r : Repository) (i : String)
    (h : ∃ row ∈ r.incidents, row.ID = i) : ∃ row, r.incident? i = some row := by
  unfold Repository.incident?
  cases hf : r.incidents.find? (fun row => decide (row.ID = i)) with
  | some row => exact ⟨row, rfl⟩
  | none =>
    obtain ⟨row, hmem, hid⟩ := h
    have := List.find?_eq_none.mp hf row hmem
    simp [hid] at this

theorem incident?_upsert_of_some (r : Repository) (c : CachedIncident) (i : String)
    (row : CachedIncident) (h : r.incident? i = some row) :
    (r.UpsertIncident c).1.incident? i =
      some (if r.closed = false ∧ c.ID = i then Repository.conflictUpdate row c else row) := by
  obtain ⟨hmem, hid⟩ := incident?_mem r i row h
  unfold Repository.UpsertIncident
  by_cases hc : r.closed = true
  · simp [hc, h]
  · have hc' : r.closed = false := by simpa using hc
    simp only [hc', Bool.false_eq_true, if_false, true_and]
    by_cases hany : r.incidents.any (fun row => decide (row.ID = c.ID)) = true
    · rw [if_pos hany]
      unfold Repository.incident? at h ⊢
      rw [List.find?_map]
      have hcomp : ((fun row : CachedIncident => decide (row.ID = i)) ∘
          (fun row : CachedIncident =>
            if row.ID = c.ID then Repository.conflictUpdate row c else row)) =
          (fun row : CachedIncident => decide (row.ID = i)) := by
        funext row'
        by_cases hr : row'.ID = c.ID <;> simp [hr, Repository.conflictUpdate]
      rw [hcomp, h]
      by_cases hci : c.ID = i
      · simp [hci, hid]
      · have : ¬ row.ID = c.ID := fun e => hci (e.symm.trans hid)
        simp [hci, this]
    · rw [if_neg hany]
      have hci : ¬ c.ID = i := by
        intro e
        apply hany
        rw [List.any_eq_true]
        exact ⟨row, hmem, by simp [hid, e]⟩
      unfold Repository.incident? at h ⊢
      simp [List.find?_append, h, hci]

theorem incident?_upsert_of_none (r : Repository) (c : CachedIncident)
    (hopen : r.closed = false) (h : r.incident? c.ID = none) :
    (r.UpsertIncident c).1.incident? c.ID = some c := by
  unfold Repository.incident? at h
  have hall := List.find?_eq_none.mp h
  have hany : ¬ r.incidents.any (fun row => decide (row.ID = c.ID)) = true := by
    rw [List.any_eq_true]
    rintro ⟨row, hmem, hrow⟩
    exact hall row hmem hrow
  unfold Repository.UpsertIncident
  simp only [hopen, Bool.false_eq_true, if_false, if_neg hany]
  unfold Repository.incident?
  simp [List.find?_append, h]

theorem conflictStep_keeps (row c : CachedIncident) :
    (if row.ID = c.ID then Repository.conflictUpdate row c else row).ID = row.ID ∧
    (if row.ID = c.ID then Repository.conflictUpdate row c else row).Pinned = row.Pinned := by
  split <;> exact ⟨rfl, rfl⟩

theorem upsert_keeps_all_pins (r : Repository) (c : CachedIncident) (i : String) (b : Bool)
    (hpres : ∃ row ∈ r.incidents, row.ID = i)
    (hall : ∀ row ∈ r.incidents, row.ID = i → row.Pinned = b) :
    (∃ row ∈ (r.UpsertIncident c).1.incidents, row.ID = i) ∧
    (∀ row ∈ (r.UpsertIncident c).1.incidents, row.ID = i → row.Pinned = b) := by
  obtain ⟨row0, hmem0, hid0⟩ := hpres
  unfold Repository.UpsertIncident
  by_cases hc : r.closed = true
  · simp only [hc, if_true]
    exact ⟨⟨row0, hmem0, hid0⟩, hall⟩
  · have hc' : r.closed = false := by simpa using hc
    simp only [hc', Bool.false_eq_true, if_false]
    by_cases hany : r.incidents.any (fun row => decide (row.ID = c.ID)) = true
    · rw [if_pos hany]
      constructor
      · refine ⟨_, List.mem_map.mpr ⟨row0, hmem0, rfl⟩, ?_⟩
        rw [(conflictStep_keeps row0 c).1]
        exact hid0
      · intro row hrow hid
        obtain ⟨row', hmem', rfl⟩ := List.mem_map.mp hrow
        rw [(conflictStep_keeps row' c).1] at hid
        rw [(conflictStep_keeps row' c).2]
        exact hall row' hmem' hid
    · rw [if_neg hany]
      have hci : ¬ c.ID = i := by
        intro e
        apply hany
        rw [List.any_eq_true]
        exact ⟨row0, hmem0, by simp [hid0, e]⟩
      constructor
      · exact ⟨row0, List.mem_append_left _ hmem0, hid0⟩
      · intro row hrow hid
        rcases List.mem_append.mp hrow with hin | hin
        · exact hall row hin hid
        · have : row = c := by simpa using hin
          exact absurd (this ▸ hid) hci

theorem upsertAll_keeps_all_pins (L : List Incident) (r : Repository) (i : String) (b : Bool)
    (hpres : ∃ row ∈ r.incidents, row.ID = i)
    (hall : ∀ row ∈ r.incidents, row.ID = i → row.Pinned = b) :
    (∃ row ∈ (upsertAll L r).incidents, row.ID = i) ∧
    (∀ row ∈ (upsertAll L r).incidents, row.ID = i → row.Pinned = b) := by
  induction L generalizing r with
  | nil => exact ⟨hpres, hall⟩
  | cons inc L ih =>
    obtain ⟨h1, h2⟩ := upsert_keeps_all_pins r (toCached inc) i b hpres hall
    exact ih (r.UpsertIncident (toCached inc)).1 h1 h2

theorem cacheWrite_keeps_all_pins (r : Repository) (tick : List Incident × Time) (i : String)
    (b : Bool) (hpres : ∃ row ∈ r.incidents, row.ID = i)
    (hall : ∀ row ∈ r.incidents, row.ID = i → row.Pinned = b) :
    ∀ row ∈ (cacheWrite r tick).incidents, row.ID = i → row.Pinned = b := by
  obtain ⟨_, h2⟩ := upsertAll_keeps_all_pins tick.1 r i b hpres hall
  intro row hrow hid
  apply h2 row _ hid
  unfold cacheWrite Repository.CleanOldIncidents at hrow
  by_cases hc : (upsertAll tick.1 r).closed = true
  · simpa [hc] using hrow
  · have hc' : (upsertAll tick.1 r).closed = false := by simpa using hc
    simp only [hc', Bool.false_eq_true, if_false] at hrow
    exact (List.mem_filter.mp hrow).1

theorem cacheWrites_keep_pin (ticks : List (List Incident × Time)) (r : Repository) (i : String)
    (b : Bool) (hpres : ∃ row ∈ r.incidents, row.ID = i)
    (hall : ∀ row ∈ r.incidents, row.ID = i → row.Pinned = b)
    (hkept : ∀ n, n ≤ ticks.length → ((ticks.take n).foldl cacheWrite r).incident? i ≠ none) :
    ∃ row, (ticks.foldl cacheWrite r).incident? i = some row ∧ row.Pinned = b := by
  induction ticks generalizing r with
  | nil =>
    obtain ⟨row, hrow⟩ := incident?_of_mem r i hpres
    obtain ⟨hmem, hid⟩ := incident?_mem r i row hrow
    exact ⟨row, hrow, hall row hmem hid⟩
  | cons t ts ih =>
    have h1 := hkept 1 (by simp)
    simp only [List.take_succ_cons, List.take_zero, List.foldl_cons, List.foldl_nil] at h1
    obtain ⟨row1, hrow1⟩ := Option.ne_none_iff_exists'.mp h1
    obtain ⟨hmem1, hid1⟩ := incident?_mem _ i row1 hrow1
    apply ih (cacheWrite r t) ⟨row1, hmem1, hid1⟩ (cacheWrite_keeps_all_pins r t i b hpres hall)
    intro n hn
    have := hkept (n + 1) (by simpa using hn)
    simpa only [List.take_succ_cons, List.foldl_cons] using this

/-! ## The Cache Writer -/

/-- C9, as stated, fails: the incident `A`, resolved long ago, is pinned with
`PinIncident`; a first tick prunes it, a second tick merges `A` again and the
upsert stores it with the pin flag unset. -/
theorem pin_lost_after_pruning_counterexample :
    ((pinnedRepository.PinIncident "A" true).1.incident? "A").map (fun row => row.Pinned) =
      some true ∧
    ((pruningTicks.foldl cacheWrite (pinnedRepository.PinIncident "A" true).1).incident? "A").map
      (fun row => row.Pinned) = some false := by
  constructor <;> decide

/-- C9, amended: in a store that holds a record with identifier `i`,
`UpsertIncident` of any incoming row, whatever its `Pinned` field, leaves the
pin flag of that record as it was; `PinIncident(i, true)` on an open store sets
it; and over any number of later ticks, each of which upserts its merged list
and then prunes with `CleanOldIncidents`, the record has the same pin flag for
as long as it is stored (identifiers being unique in the table). -/
theorem upsert_preserves_pin (r : Repository) (i : String) (row : CachedIncident)
    (h : r.incident? i = some row) :
    (∀ c : CachedIncident, ∃ row', (r.UpsertIncident c).1.incident? i = some row' ∧
      row'.Pinned = row.Pinned) ∧
    (r.closed = false → ∃ row', (r.PinIncident i true).1.incident? i = some row' ∧
      row'.Pinned = true) ∧
    (∀ ticks : List (List Incident × Time),
      (r.incidents.map (fun row => row.ID)).Nodup →
      (∀ n, n ≤ ticks.length → ((ticks.take n).foldl cacheWrite r).incident? i ≠ none) →
      ∃ row', (ticks.foldl cacheWrite r).incident? i = some row' ∧
        row'.Pinned = row.Pinned) := by
  obtain ⟨hmem, hid⟩ := incident?_mem r i row h
  refine ⟨fun c => ?_, fun hopen => ?_, fun ticks hpk hkept => ?_⟩
  · refine ⟨_, incident?_upsert_of_some r c i row h, ?_⟩
    split <;> rfl
  · refine ⟨{ row with Pinned := true }, ?_, rfl⟩
    unfold Repository.PinIncident
    simp only [hopen, Bool.false_eq_true, if_false]
    unfold Repository.incident? at h ⊢
    rw [List.find?_map]
    have hcomp : ((fun row : CachedIncident => decide (row.ID = i)) ∘
        (fun row : CachedIncident => if row.ID = i then { row with Pinned := true } else row)) =
        (fun row : CachedIncident => decide (row.ID = i)) := by
      funext row'
      by_cases hr : row'.ID = i <;> simp [hr]
    rw [hcomp, h]
    simp [hid]
  · apply cacheWrites_keep_pin ticks r i row.Pinned ⟨row, hmem, hid⟩ _ hkept
    intro row' hmem' hid'
    have : row' = row :=
      List.inj_on_of_nodup_map hpk hmem' hmem (hid'.trans hid.symm)
    rw [this]

/-- C9 at a store that holds the pinned incident `A`, for an incoming row with
the same identifier and `Pinned` unset. -/
theorem upsert_preserves_pin_witness :
    pinnedRepository.incident? "A" = some pinnedRow ∧
    ∃ row', (pinnedRepository.UpsertIncident incomingRow).1.incident? "A" = some row' ∧
      row'.Pinned = true :=
  ⟨by decide, (upsert_preserves_pin pinnedRepository "A" pinnedRow (by decide)).1 incomingRow⟩

/-- C10, as stated, fails: in a store that holds the incident `A`, upserting a
row with the same identifier and another service identifier, incident number,
creation timestamp and address leaves those four fields of the stored record as
they were. -/
theorem upsert_overwrites_all_counterexample :
    ∃ stored, (pinnedRepository.UpsertIncident incomingRow).1.incident? "A" = some stored ∧
      stored.ServiceID ≠ incomingRow.ServiceID ∧
      stored.IncidentNumber ≠ incomingRow.IncidentNumber ∧
      stored.CreatedAt ≠ incomingRow.CreatedAt ∧
      stored.HTMLURL ≠ incomingRow.HTMLURL :=
  ⟨Database.Repository.conflictUpdate pinnedRow incomingRow,
    by decide, by decide, by decide, by decide, by decide⟩

/-- C10, amended: on an open store, when no record has the identifier of the
incoming row, `UpsertIncident` stores the incoming row as it is; when a record
has it, the stored record takes the status, title, description, urgency,
last-update timestamp, assigned-user list and escalation level of the incoming
row and keeps its own service identifier, incident number, creation timestamp,
address and pin flag. -/
theorem upsert_overwrites_listed_fields (r : Repository) (c : CachedIncident)
    (hopen : r.closed = false) :
    (r.incident? c.ID = none → (r.UpsertIncident c).1.incident? c.ID = some c) ∧
    (∀ row, r.incident? c.ID = some row →
      ∃ row', (r.UpsertIncident c).1.incident? c.ID = some row' ∧
        row'.ID = c.ID ∧ row'.Status = c.Status ∧ row'.Title = c.Title ∧
        row'.Description = c.Description ∧ row'.Urgency = c.Urgency ∧
        row'.UpdatedAt = c.UpdatedAt ∧ row'.AssignedUserIDs = c.AssignedUserIDs ∧
        row'.EscalationLevel = c.EscalationLevel ∧
        row'.ServiceID = row.ServiceID ∧ row'.IncidentNumber = row.IncidentNumber ∧
        row'.CreatedAt = row.CreatedAt ∧ row'.HTMLURL = row.HTMLURL ∧
        row'.Pinned = row.Pinned) := by
  refine ⟨incident?_upsert_of_none r c hopen, fun row hrow => ?_⟩
  obtain ⟨_, hid⟩ := incident?_mem r c.ID row hrow
  refine ⟨_, incident?_upsert_of_some r c c.ID row hrow, ?_⟩
  simp [hopen, Repository.conflictUpdate, hid]

/-- The amended C10 at the store that holds the incident `A`: the status is
taken from the incoming row, the service identifier is kept. -/
theorem upsert_overwrites_listed_fields_witness :
    pinnedRepository.closed = false ∧
    ∃ row', (pinnedRepository.UpsertIncident incomingRow).1.incident? "A" = some row' ∧
      row'.Status = "triggered" ∧ row'.ServiceID = "S1" := by
  refine ⟨rfl, ?_⟩
  obtain ⟨row', h1, _, h3, _, _, _, _, _, _, h10, _⟩ :=
    (upsert_overwrites_listed_fields pinnedRepository incomingRow rfl).2 pinnedRow (by decide)
  exact ⟨row', h1, h3, h10⟩

/-! ## Retention -/

theorem upsert_closed (r : Repository) (c : CachedIncident) :
    (r.UpsertIncident c).1.closed = r.closed := by
  unfold Repository.UpsertIncident
  split
  · rfl
  · split <;> rfl

theorem upsertAll_closed (L : List Incident) (r : Repository) :
    (upsertAll L r).closed = r.closed := by
  induction L generalizing r with
  | nil => rfl
  | cons inc L ih =>
    have h := ih (r.UpsertIncident (toCached inc)).1
    rw [upsert_closed] at h
    exact h

theorem upsertAll_incident?_of_not_mem (L : List Incident) (r : Repository) (i : String)
    (row : CachedIncident) (h : r.incident? i = some row)
    (hi : i ∉ L.map (fun inc => inc.ID)) : (upsertAll L r).incident? i = some row := by
  induction L generalizing r with
  | nil => exact h
  | cons inc L ih =>
    have hne : ¬ (toCached inc).ID = i := by
      intro e
      apply hi
      simp only [List.map_cons, List.mem_cons]
      exact Or.inl e.symm
    have hstep : (r.UpsertIncident (toCached inc)).1.incident? i = some row := by
      rw [incident?_upsert_of_some r (toCached inc) i row h]
      simp [hne]
    exact ih (r.UpsertIncident (toCached inc)).1 hstep
      (fun hin => hi (List.mem_cons_of_mem _ hin))

theorem find?_filter_of_kept {α : Type} (f q : α → Bool) (l : List α) (a : α)
    (h : l.find? f = some a) (hq : q a = true) : (l.filter q).find? f = some a := by
  induction l with
  | nil => simp at h
  | cons x l ih =>
    rw [List.find?_cons] at h
    cases hfx : f x with
    | true =>
      rw [hfx] at h
      have hxa : x = a := Option.some.inj h
      subst hxa
      rw [List.filter_cons_of_pos hq, List.find?_cons, hfx]
    | false =>
      rw [hfx] at h
      cases hqx : q x with
      | true => rw [List.filter_cons_of_pos hqx, List.find?_cons, hfx]; exact ih h
      | false => rw [List.filter_cons_of_neg (by simp [hqx])]; exact ih h

theorem sqliteBefore_same_offset (a b : Time) (h : a.offset = b.offset) :
    sqliteBefore a b = true ↔ a.instant < b.instant := by
  unfold sqliteBefore Time.wallClock Time.zoneRank
  rw [h]
  simp only [Bool.or_eq_true, Bool.and_eq_true, decide_eq_true_eq]
  constructor
  · rintro (hlt | ⟨_, hrank⟩)
    · omega
    · exact absurd hrank (lt_irrefl _)
  · intro hlt
    exact Or.inl (by omega)

/-- C11, on the code: after the cache-writing step of a tick run at time `now`
on an open store (the upserts of the merged list, then
`CleanOldIncidents(now − 48h)`), no stored record is resolved with a
last-update time that SQLite finds before `now − 48h`, and a record stored
before the tick whose identifier is not in the merged list, and which is not
resolved or is not found before `now − 48h`, is stored unchanged after it. The
comparison is made on the texts the driver wrote: it is the comparison of the
instants for a last-update time that has the offset of `now`, and not
otherwise. -/
theorem cacheWrite_retention (r : Repository) (L : List Incident) (now : Time)
    (hopen : r.closed = false) :
    (∀ row ∈ (cacheWrite r (L, now + (-48) * hour)).incidents,
      ¬ (row.Status = "resolved" ∧ sqliteBefore row.UpdatedAt (now + (-48) * hour) = true)) ∧
    (∀ (i : String) (row : CachedIncident), r.incident? i = some row →
      i ∉ L.map (fun inc => inc.ID) →
      (row.Status ≠ "resolved" ∨ sqliteBefore row.UpdatedAt (now + (-48) * hour) = false) →
      (cacheWrite r (L, now + (-48) * hour)).incident? i = some row) ∧
    (∀ t : Time, t.offset = now.offset →
      (sqliteBefore t (now + (-48) * hour) = true ↔ t.instant < now.instant + (-48) * hour)) := by
  have hopen' : (upsertAll L r).closed = false := by rw [upsertAll_closed, hopen]
  refine ⟨?_, ?_, ?_⟩
  · intro row hrow
    unfold cacheWrite Repository.CleanOldIncidents at hrow
    simp only [hopen', Bool.false_eq_true, if_false] at hrow
    have hkept := (List.mem_filter.mp hrow).2
    rintro ⟨h1, h2⟩
    rw [decide_eq_true h1, h2] at hkept
    simp at hkept
  · intro i row hrow hi hkeep
    have hup := upsertAll_incident?_of_not_mem L r i row hrow hi
    unfold cacheWrite Repository.CleanOldIncidents
    simp only [hopen', Bool.false_eq_true, if_false]
    unfold Repository.incident? at hup ⊢
    apply find?_filter_of_kept _ _ _ _ hup
    rcases hkeep with hst | hold
    · rw [decide_eq_false hst]
      rfl
    · rw [hold, Bool.and_false]
      rfl
  · intro t ht
    exact sqliteBefore_same_offset t (now + (-48) * hour) ht

/-- C11 at hour 100 read nine hours east of UTC, with an empty merged list: the
resolved record last updated at hour 53 in UTC, 47 hours before, is not before
the cut-off as an instant, and is deleted all the same. -/
theorem cacheWrite_retention_witness :
    agingRepository.closed = false ∧
    agingRepository.incident? "R47" = some (resolvedRow "R47" (Time.utc (53 * hour))) ∧
    (tokyoNow + (-48) * hour).instant ≤
      (resolvedRow "R47" (Time.utc (53 * hour))).UpdatedAt.instant ∧
    (cacheWrite agingRepository ([], tokyoNow + (-48) * hour)).incident? "R47" = none ∧
    (∀ row ∈ (cacheWrite agingRepository ([], tokyoNow + (-48) * hour)).incidents,
      ¬ (row.Status = "resolved" ∧
        sqliteBefore row.UpdatedAt (tokyoNow + (-48) * hour) = true)) :=
  ⟨rfl, by decide, by decide, by decide,
    (cacheWrite_retention agingRepository [] tokyoNow rfl).1⟩

/-! ## Duplicate identifiers in the merge -/

theorem buildMap_append (L₁ L₂ : List Incident) (m : GoMap Incident) :
    buildMap (L₁ ++ L₂) m = buildMap L₂ (buildMap L₁ m) := by
  simp [buildMap, List.foldl_append]

theorem get_buildMap_of_absent (L : List Incident) (m : GoMap Incident) (k : String)
    (h : ∀ c ∈ L, c.ID ≠ k) : GoMap.get (buildMap L m) k = GoMap.get m k := by
  induction L generalizing m with
  | nil => rfl
  | cons a L ih =>
    have hstep : GoMap.get (buildMap L (m.set a.ID a)) k = GoMap.get (m.set a.ID a) k :=
      ih (m.set a.ID a) (fun c hc => h c (List.mem_cons_of_mem _ hc))
    have ha : ¬ a.ID = k := h a (List.mem_cons_self _ _)
    have hcons : buildMap (a :: L) m = buildMap L (m.set a.ID a) := rfl
    rw [hcons, hstep, GoMap.get_set, if_neg ha]

/-- C12: whatever the merged list, after `detectNewIncidents` the snapshot maps
an identifier to the last incident of the list that carries it, so that for an
identifier met in several partitions the later partition wins; and the tick
passes the merged list on as it is: the event carries the three partitions
appended, and one upsert is made per element, duplicates included. -/
theorem last_duplicate_wins (p : IncidentPoller) (before after : List Incident) (b : Incident)
    (hlast : ∀ c ∈ after, c.ID ≠ b.ID) :
    (p.detectNewIncidents (before ++ b :: after)).2.lastIncidents.get b.ID = some b ∧
    (∀ (pd : PagerDutyService) (w : World) (repo : Repository) (services : List Service),
      repo.GetServices = (services, none) → enabledServiceIDs services ≠ [] →
      (eventsEmitted (p.poll pd w repo).effects).map (fun e => e.2.incidents) =
        [(pd.FetchIncidents w (triggeredFilters
            (pollFilters (repo.GetSetting SettingAssignedOnly).1 services))).1 ++
          (pd.FetchIncidents w (acknowledgedFilters
            (pollFilters (repo.GetSetting SettingAssignedOnly).1 services))).1 ++
          (pd.FetchIncidents w (resolvedFilters w
            (pollFilters (repo.GetSetting SettingAssignedOnly).1 services))).1] ∧
      upsertCalls (p.poll pd w repo).effects =
        ((pd.FetchIncidents w (triggeredFilters
            (pollFilters (repo.GetSetting SettingAssignedOnly).1 services))).1 ++
          (pd.FetchIncidents w (acknowledgedFilters
            (pollFilters (repo.GetSetting SettingAssignedOnly).1 services))).1 ++
          (pd.FetchIncidents w (resolvedFilters w
            (pollFilters (repo.GetSetting SettingAssignedOnly).1 services))).1).map toCached) := by
  constructor
  · rw [detectNewIncidents_snd]
    have hsplit : before ++ b :: after = (before ++ [b]) ++ after := by simp
    simp only [hsplit, buildMap_append]
    rw [get_buildMap_of_absent after _ b.ID hlast]
    have hone : buildMap [b] (buildMap before GoMap.empty) =
        (buildMap before GoMap.empty).set b.ID b := rfl
    rw [hone, GoMap.get_set, if_pos rfl]
  · intro pd w repo services hget hen
    obtain ⟨_, _, r3, r4, _⟩ := tickTrace_reads pd w
      (pollFilters (repo.GetSetting SettingAssignedOnly).1 services)
      (repo.GetSetting SettingRedirectEnabled).1
      (p.detectNewIncidents (mergedIncidents pd w
        (pollFilters (repo.GetSetting SettingAssignedOnly).1 services))).1
    rw [poll_eq p pd w repo services hget hen]
    constructor
    · simp only [eventsEmitted_append, r3]
      simp [eventsEmitted, mergedIncidents]
    · simp only [upsertCalls_append, r4]
      simp [upsertCalls, mergedIncidents]

/-- C12 at the list `[A(triggered), A(acknowledged)]`: the snapshot keeps the
acknowledged `A`. -/
theorem last_duplicate_wins_witness :
    (∀ c ∈ ([] : List Incident), c.ID ≠ (incidentOf "A" "acknowledged").ID) ∧
    (newPoller.detectNewIncidents
      ([incidentOf "A" "triggered"] ++ incidentOf "A" "acknowledged" :: [])).2.lastIncidents.get
        (incidentOf "A" "acknowledged").ID = some (incidentOf "A" "acknowledged") :=
  ⟨by simp, (last_duplicate_wins newPoller [incidentOf "A" "triggered"] []
    (incidentOf "A" "acknowledged") (by simp)).1⟩

/-! ## The three fetches -/

theorem fetchCalls_append (a b : List Effect) :
    fetchCalls (a ++ b) = fetchCalls a ++ fetchCalls b := by
  simp [fetchCalls]

theorem fetchCalls_logFetchError (what : String) (err : Option String) :
    fetchCalls (logFetchError what err) = [] := by
  cases err <;> simp [logFetchError, fetchCalls]

theorem fetchCalls_alertCalls (redirectEnabled : String) (N : List Incident) :
    fetchCalls (N.flatMap (alertCalls redirectEnabled)) = [] := by
  induction N with
  | nil => simp [fetchCalls]
  | cons inc N ih =>
    simp only [List.flatMap_cons, fetchCalls_append, ih, List.append_nil]
    unfold alertCalls
    split_ifs <;> simp [fetchCalls]

theorem fetchCalls_upserts (L : List Incident) :
    fetchCalls (L.map (fun inc => Effect.UpsertIncident (toCached inc))) = [] := by
  induction L with
  | nil => simp [fetchCalls]
  | cons inc L ih =>
    simp only [fetchCalls] at ih ⊢
    simp [ih]

theorem fetchCalls_poll (p : IncidentPoller) (pd : PagerDutyService) (w : World)
    (repo : Repository) (services : List Service)
    (hget : repo.GetServices = (services, none)) (hen : enabledServiceIDs services ≠ []) :
    fetchCalls (p.poll pd w repo).effects =
      [pd.listOptions w (triggeredFilters
          (pollFilters (repo.GetSetting SettingAssignedOnly).1 services)),
        pd.listOptions w (acknowledgedFilters
          (pollFilters (repo.GetSetting SettingAssignedOnly).1 services)),
        pd.listOptions w (resolvedFilters w
          (pollFilters (repo.GetSetting SettingAssignedOnly).1 services))] := by
  rw [poll_eq p pd w repo services hget hen]
  unfold tickTrace
  simp only [fetchCalls_append, fetchCalls_logFetchError, fetchCalls_alertCalls,
    fetchCalls_upserts, List.append_nil]
  simp [fetchCalls]

/-- C14, as stated, fails: with the setting `assigned_only` on and a service
handle whose current user identifier is empty, the three requests of the tick
carry no user identifier at all. -/
theorem fetch_user_scope_counterexample :
    (assignedRepository.GetSetting SettingAssignedOnly).1 = "true" ∧
    (fetchCalls (newPoller.poll anonymousPagerDuty sampleWorld assignedRepository).effects).map
      (fun opts => opts.UserIDs) = [[], [], []] ∧
    (fetchCalls (newPoller.poll anonymousPagerDuty sampleWorld assignedRepository).effects).map
      (fun opts => opts.UserIDs) ≠
        [[anonymousPagerDuty.userID], [anonymousPagerDuty.userID], [anonymousPagerDuty.userID]] := by
  have h := fetchCalls_poll newPoller anonymousPagerDuty sampleWorld assignedRepository
    [{ ID := "S1", Alias := "payments", Enabled := true }] (by decide) (by decide)
  rw [h]
  refine ⟨by decide, by decide, by decide⟩

/-- C14, amended: a tick with at least one enabled service issues exactly three
requests, for the statuses `triggered`, `acknowledged` and `resolved`, the
first two with no time floor and the third with the floor `now − 24h`; all
three carry the identifiers of the enabled services in the order the
repository returned them, and carry the current user identifier when the
setting `assigned_only` is `true` and that identifier is not empty, and no
user identifier otherwise. -/
theorem poll_issues_three_fetches (p : IncidentPoller) (pd : PagerDutyService) (w : World)
    (repo : Repository) (services : List Service)
    (hget : repo.GetServices = (services, none)) (hen : enabledServiceIDs services ≠ []) :
    ∃ (ids users : List String),
      ids = (services.filter (fun svc => svc.Enabled)).map (fun svc => svc.ID) ∧
      users = (if (repo.GetSetting SettingAssignedOnly).1 = "true" ∧ pd.userID ≠ ""
        then [pd.userID] else []) ∧
      (pollFilters (repo.GetSetting SettingAssignedOnly).1 services).AssignedToMe =
        decide ((repo.GetSetting SettingAssignedOnly).1 = "true") ∧
      (resolvedFilters w (pollFilters (repo.GetSetting SettingAssignedOnly).1 services)).Since =
        some (w.nowFetch - 24 * hour) ∧
      fetchCalls (p.poll pd w repo).effects =
        [{ Limit := 100, Statuses := ["triggered"], ServiceIDs := ids, UserIDs := users,
           Since := "", SortBy := "created_at:desc" },
         { Limit := 100, Statuses := ["acknowledged"], ServiceIDs := ids, UserIDs := users,
           Since := "", SortBy := "created_at:desc" },
         { Limit := 100, Statuses := ["resolved"], ServiceIDs := ids, UserIDs := users,
           Since := w.timeFormat (w.nowFetch - 24 * hour), SortBy := "created_at:desc" }] := by
  have hsub : w.nowFetch + (-24) * hour = w.nowFetch - 24 * hour := by
    show ({ instant := w.nowFetch.instant + (-24) * hour, offset := w.nowFetch.offset } : Time) =
      { instant := w.nowFetch.instant - 24 * hour, offset := w.nowFetch.offset }
    rw [Time.mk.injEq]
    exact ⟨by ring, rfl⟩
  have hids : 0 < (enabledServiceIDs services).length := List.length_pos.mpr hen
  refine ⟨_, _, rfl, rfl, rfl, ?_, ?_⟩
  · simp only [resolvedFilters, hsub]
  · rw [fetchCalls_poll p pd w repo services hget hen]
    simp only [PagerDutyService.listOptions, triggeredFilters, acknowledgedFilters,
      resolvedFilters, pollFilters, hsub]
    simp [hids, enabledServiceIDs]

/-- The amended C14 at a tick of the sample world: three requests are issued,
all for the service `S1`. -/
theorem poll_issues_three_fetches_witness :
    sampleRepository.GetServices = ([{ ID := "S1", Alias := "payments", Enabled := true }], none) ∧
    enabledServiceIDs [{ ID := "S1", Alias := "payments", Enabled := true }] ≠ [] ∧
    (fetchCalls (newPoller.poll samplePagerDuty sampleWorld sampleRepository).effects).map
      (fun opts => (opts.Statuses, opts.ServiceIDs)) =
        [(["triggered"], ["S1"]), (["acknowledged"], ["S1"]), (["resolved"], ["S1"])] := by
  refine ⟨by decide, by decide, ?_⟩
  obtain ⟨ids, users, hids, _, _, _, h⟩ :=
    poll_issues_three_fetches newPoller samplePagerDuty sampleWorld sampleRepository
      [{ ID := "S1", Alias := "payments", Enabled := true }] (by decide) (by decide)
  rw [h, hids]
  simp

/-! ## The poller's stop channel -/

/-- C13, on the code: whatever the poller, the second of two successive calls
of `Stop` does not return: `close` is applied to a channel that is closed
already and panics. -/
theorem Stop_twice_panics (p : IncidentPoller) :
    (p.Stop).bind IncidentPoller.Stop = Except.error "close of closed channel" := by
  cases hch : p.stopCh <;> simp [IncidentPoller.Stop, closeChan, hch, Except.bind]

/-! ## Settings -/

theorem getSetting_upsert_same (r : Repository) (key value : String)
    (hopen : r.closed = false) :
    ({ r with settings := Repository.upsertSetting r.settings key value } :
      Repository).GetSetting key = (value, none) := by
  unfold Repository.GetSetting Repository.upsertSetting
  simp only [hopen, Bool.false_eq_true, if_false]
  by_cases hany : r.settings.any (fun row => decide (row.Key = key)) = true
  · rw [if_pos hany, List.find?_map]
    obtain ⟨row, hmem, hrow⟩ := List.any_eq_true.mp hany
    have hcomp : ((fun s : Setting => decide (s.Key = key)) ∘
        (fun row : Setting => if row.Key = key then { row with Value := value } else row)) =
        (fun s : Setting => decide (s.Key = key)) := by
      funext row'
      by_cases hr : row'.Key = key <;> simp [hr]
    rw [hcomp]
    cases hf : r.settings.find? (fun s => decide (s.Key = key)) with
    | none =>
      have := List.find?_eq_none.mp hf row hmem
      exact absurd hrow this
    | some row0 =>
      have hk : row0.Key = key := by simpa using List.find?_some hf
      simp [hk]
  · rw [if_neg hany]
    have hnone : r.settings.find? (fun s => decide (s.Key = key)) = none := by
      rw [List.find?_eq_none]
      intro row hmem hrow
      exact hany (List.any_eq_true.mpr ⟨row, hmem, hrow⟩)
    simp [List.find?_append, hnone]

theorem getSetting_upsert_other (r : Repository) (key key' value : String) (hne : key ≠ key') :
    ({ r with settings := Repository.upsertSetting r.settings key value } :
      Repository).GetSetting key' = r.GetSetting key' := by
  unfold Repository.GetSetting Repository.upsertSetting
  by_cases hc : r.closed = true
  · simp [hc]
  · have hopen : r.closed = false := by simpa using hc
    simp only [hopen, Bool.false_eq_true, if_false]
    by_cases hany : r.settings.any (fun row => decide (row.Key = key)) = true
    · rw [if_pos hany, List.find?_map]
      have hcomp : ((fun s : Setting => decide (s.Key = key')) ∘
          (fun row : Setting => if row.Key = key then { row with Value := value } else row)) =
          (fun s : Setting => decide (s.Key = key')) := by
        funext row'
        by_cases hr : row'.Key = key <;> simp [hr]
      rw [hcomp]
      cases hf : r.settings.find? (fun s => decide (s.Key = key')) with
      | none => rfl
      | some row0 =>
        have hk : row0.Key = key' := by simpa using List.find?_some hf
        have hk' : ¬ row0.Key = key := fun e => hne (e.symm.trans hk)
        simp [hk']
    · rw [if_neg hany]
      have hk : ¬ key = key' := hne
      cases hf : r.settings.find? (fun s => decide (s.Key = key')) with
      | none => simp [List.find?_append, hf, hk]
      | some row0 => simp [List.find?_append, hf]

theorem hasPrefixOf_append (pre rest : String) : hasPrefixOf (pre ++ rest) pre = true := by
  unfold hasPrefixOf
  rw [String.data_append, List.isPrefixOf_iff_prefix]
  exact List.prefix_append _ _

theorem trimPrefixOf_append (pre rest : String) : trimPrefixOf (pre ++ rest) pre = rest := by
  unfold trimPrefixOf
  rw [if_pos (hasPrefixOf_append pre rest), String.data_append, List.drop_left]

theorem decrypt_encrypt (b64 : Base64) (hb : b64.Lawful) (v : String) :
    Repository.decryptValue b64 (Repository.encryptValue b64 v).1 = (v, none) := by
  unfold Repository.decryptValue Repository.encryptValue
  simp only [hasPrefixOf_append, not_true_eq_false, if_false, trimPrefixOf_append, hb.1 v]

theorem encrypted_ne (b64 : Base64) (hb : b64.Lawful) (v : String) :
    "enc:" ++ b64.EncodeToString v ≠ v := by
  intro h
  have hlen := congrArg String.length h
  rw [String.length_append] at hlen
  have h4 : "enc:".length = 4 := by decide
  have := hb.2 v
  omega

theorem getAPIKey_after_set (r : Repository) (b64 : Base64) (v : String)
    (hopen : r.closed = false) (hb : b64.Lawful) :
    (r.SetSetting b64 SettingAPIKey v).1.GetAPIKey b64 = (v, none) := by
  by_cases hv : v = ""
  · subst hv
    have hset : (r.SetSetting b64 SettingAPIKey "").1 =
        { r with settings := Repository.upsertSetting r.settings SettingAPIKey "" } := by
      simp [Repository.SetSetting, hopen]
    rw [hset]
    unfold Repository.GetAPIKey
    rw [getSetting_upsert_same r SettingAPIKey "" hopen]
    simp
  · have hset : (r.SetSetting b64 SettingAPIKey v).1 =
        { r with
          settings :=
            Repository.upsertSetting r.settings SettingAPIKey ("enc:" ++ b64.EncodeToString v) } := by
      simp [Repository.SetSetting, Repository.encryptValue, hopen, hv]
    have hget := getSetting_upsert_same r SettingAPIKey ("enc:" ++ b64.EncodeToString v) hopen
    have hne : ¬ ("enc:" ++ b64.EncodeToString v) = "" := by
      intro h
      have hlen := congrArg String.length h
      rw [String.length_append] at hlen
      have h4 : "enc:".length = 4 := by decide
      have h0 : "".length = 0 := by decide
      omega
    rw [hset]
    unfold Repository.GetAPIKey
    rw [hget]
    simp only [ne_eq, not_true_eq_false, hne, or_self, if_false]
    exact decrypt_encrypt b64 hb v

/-- C16: on an open store, whatever the string `v`, `GetAPIKey` after
`SetSetting("api_key", v)` returns `v` without an error, also when `v` begins
with `enc:`; and when `v` is not empty the value stored under `api_key` is the
prefix `enc:` followed by the encoding of `v`, which is not `v`. The codec is
the one of the standard library, of which the round trip and the length of an
encoding are assumed. -/
theorem api_key_round_trip (r : Repository) (b64 : Base64) (v : String)
    (hopen : r.closed = false) (hb : b64.Lawful) :
    (r.SetSetting b64 SettingAPIKey v).1.GetAPIKey b64 = (v, none) ∧
    (v ≠ "" →
      ((r.SetSetting b64 SettingAPIKey v).1.GetSetting SettingAPIKey).1 =
        "enc:" ++ b64.EncodeToString v ∧
      ((r.SetSetting b64 SettingAPIKey v).1.GetSetting SettingAPIKey).1 ≠ v) := by
  by_cases hv : v = ""
  · subst hv
    refine ⟨?_, fun h => absurd rfl h⟩
    have hset : (r.SetSetting b64 SettingAPIKey "").1 =
        { r with settings := Repository.upsertSetting r.settings SettingAPIKey "" } := by
      simp [Repository.SetSetting, hopen]
    rw [hset]
    unfold Repository.GetAPIKey
    rw [getSetting_upsert_same r SettingAPIKey "" hopen]
    simp
  · have hset : (r.SetSetting b64 SettingAPIKey v).1 =
        { r with
          settings :=
            Repository.upsertSetting r.settings SettingAPIKey ("enc:" ++ b64.EncodeToString v) } := by
      simp [Repository.SetSetting, Repository.encryptValue, hopen, hv]
    have hget := getSetting_upsert_same r SettingAPIKey ("enc:" ++ b64.EncodeToString v) hopen
    have hne : ¬ ("enc:" ++ b64.EncodeToString v) = "" := by
      intro h
      have hlen := congrArg String.length h
      rw [String.length_append] at hlen
      have h4 : "enc:".length = 4 := by decide
      have h0 : "".length = 0 := by decide
      omega
    refine ⟨?_, fun _ => ?_⟩
    · rw [hset]
      unfold Repository.GetAPIKey
      rw [hget]
      simp only [ne_eq, not_true_eq_false, hne, or_self, if_false]
      exact decrypt_encrypt b64 hb v
    · rw [hset, hget]
      exact ⟨rfl, encrypted_ne b64 hb v⟩

theorem plainCodec_lawful : plainCodec.Lawful :=
  ⟨fun _ => rfl, fun _ => Nat.le_refl _⟩

/-- C16 at the key `enc:secret`, which begins with the prefix itself. -/
theorem api_key_round_trip_witness :
    sampleRepository.closed = false ∧ plainCodec.Lawful ∧
    (sampleRepository.SetSetting plainCodec SettingAPIKey "enc:secret").1.GetAPIKey plainCodec =
      ("enc:secret", none) :=
  ⟨rfl, plainCodec_lawful,
    (api_key_round_trip sampleRepository plainCodec "enc:secret" rfl plainCodec_lawful).1⟩

/-! ## app.go: lemmas -/

theorem SetSetting_other_key (r : Repository) (b64 : Base64) (key value : String)
    (hkey : key ≠ SettingAPIKey) :
    (r.SetSetting b64 key value).1 =
      if r.closed then r
      else { r with settings := Repository.upsertSetting r.settings key value } := by
  unfold Repository.SetSetting
  rw [if_neg (fun h => hkey h.1)]
  split <;> rfl

theorem getSetting_SetSetting_other (r : Repository) (b64 : Base64) (key key' value : String)
    (hne : key ≠ key') : (r.SetSetting b64 key value).1.GetSetting key' = r.GetSetting key' := by
  unfold Repository.SetSetting Repository.encryptValue
  by_cases hc : r.closed = true
  · split <;> simp [hc]
  · have hopen : r.closed = false := by simpa using hc
    split
    · simp only [hopen, Bool.false_eq_true, if_false]
      have h := getSetting_upsert_other r key key' ("enc:" ++ b64.EncodeToString value) hne
      simp only [hopen] at h
      exact h
    · simp only [hopen, Bool.false_eq_true, if_false]
      have h := getSetting_upsert_other r key key' value hne
      simp only [hopen] at h
      exact h

theorem SetSetting_closed (r : Repository) (b64 : Base64) (key value : String) :
    (r.SetSetting b64 key value).1.closed = r.closed := by
  unfold Repository.SetSetting Repository.encryptValue
  by_cases hc : r.closed = true
  · split <;> simp [hc]
  · have hopen : r.closed = false := by simpa using hc
    split <;> simp [hopen]

theorem getSetting_SetSetting_same (r : Repository) (b64 : Base64) (key value : String)
    (hkey : key ≠ SettingAPIKey) (hopen : r.closed = false) :
    (r.SetSetting b64 key value).1.GetSetting key = (value, none) := by
  rw [SetSetting_other_key r b64 key value hkey]
  have h := getSetting_upsert_same r key value hopen
  simp only [hopen, Bool.false_eq_true, if_false] at h ⊢
  exact h

theorem writePreferences_reads (r : Repository) (b64 : Base64) (s : AppSettings) :
    (writePreferences r b64 s).GetSetting SettingAPIKey = r.GetSetting SettingAPIKey ∧
    (r.closed = false →
      (writePreferences r b64 s).GetSetting SettingTheme = (s.Theme, none) ∧
      (writePreferences r b64 s).GetSetting SettingAssignedOnly =
        (boolToString s.AssignedOnly, none) ∧
      (writePreferences r b64 s).GetSetting SettingRedirectEnabled =
        (boolToString s.RedirectEnabled, none) ∧
      (writePreferences r b64 s).GetSetting SettingSoundPath = (s.SoundPath, none) ∧
      (writePreferences r b64 s).GetSetting SettingSoundEnabled =
        (boolToString s.SoundEnabled, none)) := by
  unfold writePreferences
  constructor
  · simp only [getSetting_SetSetting_other _ b64 SettingSoundEnabled SettingAPIKey _ (by decide),
      getSetting_SetSetting_other _ b64 SettingSoundPath SettingAPIKey _ (by decide),
      getSetting_SetSetting_other _ b64 SettingRedirectEnabled SettingAPIKey _ (by decide),
      getSetting_SetSetting_other _ b64 SettingAssignedOnly SettingAPIKey _ (by decide),
      getSetting_SetSetting_other _ b64 SettingTheme SettingAPIKey _ (by decide)]
  · intro hopen
    have h1 : (r.SetSetting b64 SettingTheme s.Theme).1.closed = false := by
      rw [SetSetting_closed, hopen]
    have h2 := (SetSetting_closed (r.SetSetting b64 SettingTheme s.Theme).1 b64
      SettingAssignedOnly (boolToString s.AssignedOnly)).trans h1
    have h3 := (SetSetting_closed _ b64 SettingRedirectEnabled
      (boolToString s.RedirectEnabled)).trans h2
    have h4 := (SetSetting_closed _ b64 SettingSoundPath s.SoundPath).trans h3
    refine ⟨?_, ?_, ?_, ?_, ?_⟩
    · rw [getSetting_SetSetting_other _ b64 SettingSoundEnabled SettingTheme _ (by decide),
        getSetting_SetSetting_other _ b64 SettingSoundPath SettingTheme _ (by decide),
        getSetting_SetSetting_other _ b64 SettingRedirectEnabled SettingTheme _ (by decide),
        getSetting_SetSetting_other _ b64 SettingAssignedOnly SettingTheme _ (by decide)]
      exact getSetting_SetSetting_same r b64 SettingTheme s.Theme (by decide) hopen
    · rw [getSetting_SetSetting_other _ b64 SettingSoundEnabled SettingAssignedOnly _ (by decide),
        getSetting_SetSetting_other _ b64 SettingSoundPath SettingAssignedOnly _ (by decide),
        getSetting_SetSetting_other _ b64 SettingRedirectEnabled SettingAssignedOnly _
          (by decide)]
      exact getSetting_SetSetting_same _ b64 SettingAssignedOnly _ (by decide) h1
    · rw [getSetting_SetSetting_other _ b64 SettingSoundEnabled SettingRedirectEnabled _
          (by decide),
        getSetting_SetSetting_other _ b64 SettingSoundPath SettingRedirectEnabled _ (by decide)]
      exact getSetting_SetSetting_same _ b64 SettingRedirectEnabled _ (by decide) h2
    · rw [getSetting_SetSetting_other _ b64 SettingSoundEnabled SettingSoundPath _ (by decide)]
      exact getSetting_SetSetting_same _ b64 SettingSoundPath _ (by decide) h3
    · exact getSetting_SetSetting_same _ b64 SettingSoundEnabled _ (by decide) h4

theorem SaveSettings_of_masked (a : App) (remote : Remote) (s : AppSettings)
    (h : s.APIKey = "" ∨ startsWith s.APIKey "****" = true) :
    a.SaveSettings remote s = Except.ok
      ({ a with repository := writePreferences a.repository remote.base64 s },
        [AppEffect.EventsEmit "settings:updated" (AppEvent.settings s)]) := by
  unfold App.SaveSettings
  have hcond : ¬ (s.APIKey ≠ "" ∧ ¬ startsWith s.APIKey "****" = true) := by
    rintro ⟨h1, h2⟩
    rcases h with h | h
    · exact h1 h
    · exact h2 h
  simp only [if_neg hcond, List.nil_append]

theorem SaveSettings_of_unmasked (a : App) (remote : Remote) (s : AppSettings)
    (h1 : s.APIKey ≠ "") (h2 : startsWith s.APIKey "****" = false) :
    a.SaveSettings remote s =
      match a.replaceAPIKey remote s.APIKey with
      | Except.error msg => Except.error msg
      | Except.ok (a', tr) =>
        Except.ok ({ a' with repository := writePreferences a'.repository remote.base64 s },
          tr ++ [AppEffect.EventsEmit "settings:updated" (AppEvent.settings s)]) := by
  unfold App.SaveSettings
  have hcond : s.APIKey ≠ "" ∧ ¬ startsWith s.APIKey "****" = true := ⟨h1, by simp [h2]⟩
  simp only [if_pos hcond]

theorem replaceAPIKey_of_stopped (a : App) (remote : Remote) (k : String) (p : IncidentPoller)
    (hp : a.poller = some p) (hclosed : p.stopCh = Chan.closed) :
    a.replaceAPIKey remote k = Except.error "close of closed channel" := by
  unfold App.replaceAPIKey
  simp [hp, IncidentPoller.Stop, closeChan, hclosed]

theorem replaceAPIKey_of_live (a : App) (remote : Remote) (k : String)
    (hlive : ∀ p, a.poller = some p → p.stopCh = Chan.made) :
    a.replaceAPIKey remote k = Except.ok (App.initializePagerDuty
      { a with
        repository := (a.repository.SetSetting remote.base64 SettingAPIKey k).1
        poller := a.poller.map (fun p => { p with stopCh := Chan.closed }) } remote) := by
  unfold App.replaceAPIKey
  cases hp : a.poller with
  | none => simp
  | some p => simp [IncidentPoller.Stop, closeChan, hlive p hp]

theorem NewPagerDutyService_of_rejected (remote : Remote) (apiKey : String) (repo : Repository)
    (hrej : ∀ k, ∃ e, remote.getCurrentUser k = Except.error e) :
    ∃ e, NewPagerDutyService remote apiKey repo = Except.error e := by
  unfold NewPagerDutyService
  by_cases hk : apiKey = ""
  · exact ⟨_, by rw [if_pos hk]⟩
  · obtain ⟨e, he⟩ := hrej apiKey
    exact ⟨_, by rw [if_neg hk, he]⟩

theorem initializePagerDuty_of_rejected (a : App) (remote : Remote)
    (hrej : ∀ k, ∃ e, remote.getCurrentUser k = Except.error e) :
    (a.initializePagerDuty remote).1 = a := by
  unfold App.initializePagerDuty
  rcases hkey : a.repository.GetAPIKey remote.base64 with ⟨apiKey, err⟩
  obtain ⟨e, he⟩ := NewPagerDutyService_of_rejected remote apiKey a.repository hrej
  simp only [he]
  split <;> rfl

/-! ## app.go: the claims -/

/-- C17, on the code: with a key that is empty or begins with `****`,
`SaveSettings` leaves the stored `api_key`, the poller and the service as they
are, makes no call but the event `settings:updated`, and writes the five other
settings. With any other key it stores the key, stops the poller if there is
one and calls `initializePagerDuty`, provided that poller has not been stopped
before; when it has, `Stop` panics and `SaveSettings` ends there, after the
key is stored and before anything is reinitialised. -/
theorem SaveSettings_key_handling (a : App) (remote : Remote) (s : AppSettings) :
    ((s.APIKey = "" ∨ startsWith s.APIKey "****" = true) →
      a.SaveSettings remote s = Except.ok
        ({ a with repository := writePreferences a.repository remote.base64 s },
          [AppEffect.EventsEmit "settings:updated" (AppEvent.settings s)]) ∧
      (writePreferences a.repository remote.base64 s).GetSetting SettingAPIKey =
        a.repository.GetSetting SettingAPIKey ∧
      (a.repository.closed = false →
        (writePreferences a.repository remote.base64 s).GetSetting SettingTheme =
          (s.Theme, none) ∧
        (writePreferences a.repository remote.base64 s).GetSetting SettingAssignedOnly =
          (boolToString s.AssignedOnly, none) ∧
        (writePreferences a.repository remote.base64 s).GetSetting SettingRedirectEnabled =
          (boolToString s.RedirectEnabled, none) ∧
        (writePreferences a.repository remote.base64 s).GetSetting SettingSoundPath =
          (s.SoundPath, none) ∧
        (writePreferences a.repository remote.base64 s).GetSetting SettingSoundEnabled =
          (boolToString s.SoundEnabled, none))) ∧
    (s.APIKey ≠ "" → startsWith s.APIKey "****" = false →
      (∀ p, a.poller = some p → p.stopCh = Chan.made) →
      ∃ a1 : App,
        a1.repository = (a.repository.SetSetting remote.base64 SettingAPIKey s.APIKey).1 ∧
        a1.pd = a.pd ∧
        a1.poller = a.poller.map (fun p => { p with stopCh := Chan.closed }) ∧
        a.SaveSettings remote s = Except.ok
          ({ (a1.initializePagerDuty remote).1 with
             repository :=
               writePreferences (a1.initializePagerDuty remote).1.repository remote.base64 s },
            (a1.initializePagerDuty remote).2 ++
              [AppEffect.EventsEmit "settings:updated" (AppEvent.settings s)]) ∧
        (a.repository.closed = false → remote.base64.Lawful →
          a1.repository.GetAPIKey remote.base64 = (s.APIKey, none))) ∧
    (s.APIKey ≠ "" → startsWith s.APIKey "****" = false →
      (∃ p, a.poller = some p ∧ p.stopCh = Chan.closed) →
      a.SaveSettings remote s = Except.error "close of closed channel") := by
  refine ⟨fun h => ⟨SaveSettings_of_masked a remote s h, ?_⟩, fun h1 h2 hlive => ?_,
    fun h1 h2 hstale => ?_⟩
  · exact writePreferences_reads a.repository remote.base64 s
  · refine ⟨{ a with
              repository := (a.repository.SetSetting remote.base64 SettingAPIKey s.APIKey).1
              poller := a.poller.map (fun p => { p with stopCh := Chan.closed }) },
      rfl, rfl, rfl, ?_, fun hopen hb => ?_⟩
    · rw [SaveSettings_of_unmasked a remote s h1 h2, replaceAPIKey_of_live a remote s.APIKey hlive]
    · exact getAPIKey_after_set a.repository remote.base64 s.APIKey hopen hb
  · obtain ⟨p, hp, hclosed⟩ := hstale
    rw [SaveSettings_of_unmasked a remote s h1 h2,
      replaceAPIKey_of_stopped a remote s.APIKey p hp hclosed]

/-- C17 at an application whose poller has been stopped: the call panics. -/
theorem SaveSettings_key_handling_witness :
    (settingsWithKey "K3").APIKey ≠ "" ∧ startsWith (settingsWithKey "K3").APIKey "****" = false ∧
    (∃ p, staleApp.poller = some p ∧ p.stopCh = Chan.closed) ∧
    staleApp.SaveSettings rejectingRemote (settingsWithKey "K3") =
      Except.error "close of closed channel" :=
  ⟨by decide, by decide, ⟨_, rfl, rfl⟩,
    (SaveSettings_key_handling staleApp rejectingRemote (settingsWithKey "K3")).2.2
      (by decide) (by decide) ⟨_, rfl, rfl⟩⟩

/-- C18, on the code: when the poller is running and the remote rejects the
key, a first `SaveSettings` with an unmasked key stops the poller and leaves
`App.poller` pointing at it, and a second `SaveSettings` with an unmasked key
calls `Stop` on that stopped poller: the close of the closed channel is
reached and panics. -/
theorem SaveSettings_twice_panics (a : App) (remote : Remote) (s1 s2 : AppSettings)
    (p : IncidentPoller) (hp : a.poller = some p) (hmade : p.stopCh = Chan.made)
    (h1 : s1.APIKey ≠ "" ∧ startsWith s1.APIKey "****" = false)
    (h2 : s2.APIKey ≠ "" ∧ startsWith s2.APIKey "****" = false)
    (hrej : ∀ k, ∃ e, remote.getCurrentUser k = Except.error e) :
    (∃ st, a.SaveSettings remote s1 = Except.ok st ∧
      st.1.poller = some { p with stopCh := Chan.closed }) ∧
    (a.SaveSettings remote s1).bind (fun st => st.1.SaveSettings remote s2) =
      Except.error "close of closed channel" := by
  have hlive : ∀ q, a.poller = some q → q.stopCh = Chan.made := by
    intro q hq
    rw [hp] at hq
    rw [← Option.some.inj hq]
    exact hmade
  have hfirst := SaveSettings_of_unmasked a remote s1 h1.1 h1.2
  rw [replaceAPIKey_of_live a remote s1.APIKey hlive] at hfirst
  simp only at hfirst
  have hpoller : (App.initializePagerDuty
      { a with
        repository := (a.repository.SetSetting remote.base64 SettingAPIKey s1.APIKey).1
        poller := a.poller.map (fun p => { p with stopCh := Chan.closed }) } remote).1.poller =
      some { p with stopCh := Chan.closed } := by
    rw [initializePagerDuty_of_rejected _ remote hrej, hp]
    rfl
  have hex : ∃ st, a.SaveSettings remote s1 = Except.ok st ∧
      st.1.poller = some { p with stopCh := Chan.closed } := ⟨_, hfirst, hpoller⟩
  refine ⟨hex, ?_⟩
  obtain ⟨st, hst, hpol⟩ := hex
  rw [hst]
  simp only [Except.bind]
  rw [SaveSettings_of_unmasked st.1 remote s2 h2.1 h2.2,
    replaceAPIKey_of_stopped st.1 remote s2.APIKey { p with stopCh := Chan.closed } hpol rfl]

/-- C18 at a running application and a remote that rejects every key: the
second of two calls with the keys `K2` and `K3` panics. -/
theorem SaveSettings_twice_panics_witness :
    runningApp.poller = some NewIncidentPoller ∧ NewIncidentPoller.stopCh = Chan.made ∧
    (runningApp.SaveSettings rejectingRemote (settingsWithKey "K2")).bind
      (fun st => st.1.SaveSettings rejectingRemote (settingsWithKey "K3")) =
        Except.error "close of closed channel" :=
  ⟨rfl, rfl,
    (SaveSettings_twice_panics runningApp rejectingRemote (settingsWithKey "K2")
      (settingsWithKey "K3") NewIncidentPoller rfl rfl ⟨by decide, by decide⟩
      ⟨by decide, by decide⟩ (fun _ => ⟨_, rfl⟩)).2⟩

/-- C19, on the code: `GetSettings` returns the empty string for an empty key
and `****` followed by the last four characters for a key of four characters or
more; for a key of one to three characters the slice expression
`apiKey[len(apiKey)-4:]` has a negative bound and panics. -/
theorem GetSettings_masks_key (a : App) (remote : Remote) :
    ((a.repository.GetAPIKey remote.base64).1 = "" →
      ∃ st, a.GetSettings remote = Except.ok st ∧ st.APIKey = "") ∧
    ((a.repository.GetAPIKey remote.base64).1 ≠ "" →
      (a.repository.GetAPIKey remote.base64).1.length < 4 →
      a.GetSettings remote = Except.error "runtime error: slice bounds out of range") ∧
    (4 ≤ (a.repository.GetAPIKey remote.base64).1.length →
      ∃ st, a.GetSettings remote = Except.ok st ∧
        st.APIKey = "****" ++ sliceFrom (a.repository.GetAPIKey remote.base64).1
          ((a.repository.GetAPIKey remote.base64).1.length - 4)) := by
  refine ⟨fun h0 => ?_, fun hne hlt => ?_, fun hge => ?_⟩
  · unfold App.GetSettings
    simp [h0]
  · unfold App.GetSettings
    simp [hne, hlt]
  · have hne : (a.repository.GetAPIKey remote.base64).1 ≠ "" := by
      intro h
      rw [h] at hge
      have h0 : "".length = 0 := by decide
      omega
    have hnlt : ¬ (a.repository.GetAPIKey remote.base64).1.length < 4 := by omega
    unfold App.GetSettings
    simp [hne, hnlt]

/-- C19 at the stored key `abc`: the call panics. -/
theorem GetSettings_masks_key_witness :
    ((appWithKey "abc").repository.GetAPIKey rejectingRemote.base64).1 = "abc" ∧
    (appWithKey "abc").GetSettings rejectingRemote =
      Except.error "runtime error: slice bounds out of range" :=
  ⟨by decide,
    (GetSettings_masks_key (appWithKey "abc") rejectingRemote).2.1 (by decide) (by decide)⟩

/-! ## The loop and `Stop` -/

theorem step_of_returned (s s' : LoopState) (a : LoopAction)
    (hret : s.phase = LoopPhase.returned) (hstep : s.step a = some s') :
    s'.phase = LoopPhase.returned ∧ tickEvents s'.log = tickEvents s.log := by
  cases a with
  | initialPoll => simp [LoopState.step, hret] at hstep
  | tickerFires => simp [LoopState.step, hret] at hstep
  | selectTicker => simp [LoopState.step, hret] at hstep
  | selectStop => simp [LoopState.step, hret] at hstep
  | endTick w => simp [LoopState.step, hret] at hstep
  | callStop =>
    unfold LoopState.step at hstep
    cases hstop : s.poller.Stop with
    | error msg => simp [hstop] at hstep
    | ok p' =>
      simp only [hstop, Option.some.injEq] at hstep
      subst hstep
      exact ⟨hret, by simp [tickEvents, List.filter_append]⟩

theorem run_of_returned (actions : List LoopAction) (s s' : LoopState)
    (hret : s.phase = LoopPhase.returned) (hrun : s.run actions = some s') :
    s'.phase = LoopPhase.returned ∧ tickEvents s'.log = tickEvents s.log := by
  induction actions generalizing s with
  | nil =>
    simp only [LoopState.run, Option.some.injEq] at hrun
    subst hrun
    exact ⟨hret, rfl⟩
  | cons a rest ih =>
    unfold LoopState.run at hrun
    cases hstep : s.step a with
    | none => simp [hstep] at hrun
    | some s1 =>
      simp only [hstep] at hrun
      obtain ⟨h1, h2⟩ := step_of_returned s s1 a hret hstep
      obtain ⟨h3, h4⟩ := ih s1 h1 hrun
      exact ⟨h3, h4.trans h2⟩

/-- C15, as stated, fails on two runs from the start of the loop. In the
first, `Stop()` returns while the initial tick is in flight, and the tick then
runs to its end: the sound alert, the browser redirect and the update event
come after the return of `Stop()`. In the second, a tick of the ticker is
pending when `Stop()` returns, and the `select` takes the case of the ticker:
a tick starts after the return of `Stop()`. -/
theorem stop_does_not_end_ticks_counterexample :
    (∃ s, loopStart.run [LoopAction.initialPoll, LoopAction.callStop,
        LoopAction.endTick sampleWorld] = some s ∧
      LoopEvent.Dispatched Effect.PlayAlert ∈ afterStop s.log ∧
      LoopEvent.Dispatched (Effect.BrowserOpenURL "https://example.test/incidents/A") ∈
        afterStop s.log ∧
      (eventsEmitted ((afterStop s.log).filterMap (fun e =>
        match e with
        | LoopEvent.Dispatched eff => some eff
        | _ => none))).map (fun e => e.1) = ["incidents:updated"]) ∧
    (∃ s, loopStart.run [LoopAction.initialPoll, LoopAction.endTick sampleWorld,
        LoopAction.tickerFires, LoopAction.callStop, LoopAction.selectTicker] = some s ∧
      afterStop s.log = [LoopEvent.TickStarted]) := by
  refine ⟨⟨_, rfl, ?_, ?_, ?_⟩, ⟨_, rfl, ?_⟩⟩ <;> decide

/-- C15, amended: `Stop()` closes the stop channel and returns without waiting
for the loop. When the loop is at its `select` with the channel closed and no
tick of the ticker pending, the only move of its goroutine is to return; and
once the loop has returned, no tick starts and no call of a tick is made,
whatever else happens. -/
theorem loop_after_stop (s : LoopState) :
    (∀ s', s.step LoopAction.callStop = some s' →
      s'.poller.stopCh = Chan.closed ∧ s'.phase = s.phase ∧
      s'.log = s.log ++ [LoopEvent.StopReturned]) ∧
    (s.phase = LoopPhase.selecting → s.poller.stopCh = Chan.closed → s.tickPending = false →
      s.step LoopAction.selectStop = some { s with phase := LoopPhase.returned } ∧
      s.step LoopAction.selectTicker = none ∧
      s.step LoopAction.initialPoll = none ∧
      ∀ w, s.step (LoopAction.endTick w) = none) ∧
    (s.phase = LoopPhase.returned →
      ∀ (actions : List LoopAction) (s' : LoopState), s.run actions = some s' →
        s'.phase = LoopPhase.returned ∧ tickEvents s'.log = tickEvents s.log) := by
  refine ⟨fun s' hstep => ?_, fun hsel hclosed hpend => ?_, fun hret actions s' hrun => ?_⟩
  · unfold LoopState.step at hstep
    cases hch : s.poller.stopCh with
    | made =>
      simp only [IncidentPoller.Stop, closeChan, hch, Option.some.injEq] at hstep
      subst hstep
      exact ⟨rfl, rfl, rfl⟩
    | closed => simp [IncidentPoller.Stop, closeChan, hch] at hstep
  · refine ⟨?_, ?_, ?_, fun w => ?_⟩ <;> simp [LoopState.step, hsel, hclosed, hpend]
  · exact run_of_returned actions s s' hret hrun

/-- The amended C15 on a run in which the loop sees the stop signal at its
`select`: the loop returns, and a later call of `Stop` aside, nothing can be
added to the log. -/
theorem loop_after_stop_witness :
    ∃ s, loopStart.run [LoopAction.initialPoll, LoopAction.endTick sampleWorld,
        LoopAction.callStop, LoopAction.selectStop] = some s ∧
      s.phase = LoopPhase.returned ∧
      ∀ (actions : List LoopAction) (s' : LoopState), s.run actions = some s' →
        s'.phase = LoopPhase.returned ∧ tickEvents s'.log = tickEvents s.log :=
  ⟨_, rfl, by decide, fun actions s' hrun => (loop_after_stop _).2.2 (by decide) actions s' hrun⟩

end PagerOps
